import Mathlib

/-!
Verification development for the `mattermost-ai-limits-monitor` plugin
(aggregation-and-cache subsystem).

The repository contains three iterations of the same Go plugin; each is
embedded under its own namespace:

* `Push` — the webhook iteration: the plugin file registering
  `/api/v1/claude-push` (src/unnamed/part_001) together with the provider
  file whose Claude data arrives by webhook push (src/unnamed/part_004).
* `Pull` — the OAuth iteration: the plugin file with Claude access/refresh
  tokens and an OpenAI budget (first file of src/unnamed/part_002) together
  with src/server/providers.go.
* `Stub` — the early iteration: the plugin file with `ClaudeAdminApiKey`
  and the digit-scanned `CacheTTLSeconds` (second file of
  src/unnamed/part_002) together with src/unnamed/part_003.

Modelling conventions:

* Go `float64` values are embedded as `ℚ`; the numeric comparisons the
  status thresholds perform are exact at every input exercised here.
* Time instants and `time.Duration` values are embedded as `Int` counts of
  seconds (`time.Now().Unix()` granularity); `time.Since t = now - t`.
* Outbound HTTP is embedded as an explicit "world": each `client.Do` call
  consumes one `FetchOutcome` describing either a transport failure or a
  response (status code, raw body, and the result of `json.Unmarshal` of
  that body into `map[string]interface` — `none` when unmarshalling fails).
* Resolvers return the produced `ServiceStatus`, the updated cache, and the
  number of `client.Do` invocations performed, so cache properties about
  "no upstream call" are statable.
-/

/-- JSON value as produced by Go `encoding/json` unmarshalling into an
`interface` value: numbers become `float64` (here `ℚ`), objects become
`map[string]interface` (here association lists, first binding wins). -/
inductive JValue where
  | null : JValue
  | bool (b : Bool) : JValue
  | num (q : ℚ) : JValue
  | str (s : String) : JValue
  | arr (xs : List JValue) : JValue
  | obj (fields : List (String × JValue)) : JValue

/-- A Go `map[string]interface` after unmarshalling. -/
abbrev JObj := List (String × JValue)

/-- Association lookup on an unmarshalled JSON object (Go map indexing). -/
def jLookup (m : JObj) (key : String) : Option JValue :=
  match m with
  | [] => none
  | (k, v) :: rest => if k = key then some v else jLookup rest key

/-- Embeds the source helper `getFloat`: returns the numeric field value,
or 0 when the key is absent or not a number. -/
def getFloat (m : JObj) (key : String) : ℚ :=
  match jLookup m key with
  | some (.num q) => q
  | _ => 0

/-- Embeds the source helper `getString`: returns the string field value,
or the empty string when the key is absent or not a string. -/
def getString (m : JObj) (key : String) : String :=
  match jLookup m key with
  | some (.str s) => s
  | _ => ""

/-- Embeds the source helper `toFloat` (providers.go): numeric values pass
through, anything else becomes 0. -/
def toFloat (v : JValue) : ℚ :=
  match v with
  | .num q => q
  | _ => 0

/-- Go `int64(f)` conversion of a float: truncation toward zero. -/
def truncToInt (q : ℚ) : Int :=
  q.num / (q.den : Int)

/-- Go `body[:min(len(body), 200)]` truncation of a raw response body
(byte-level in Go; character-level here, identical on ASCII bodies). -/
def truncBody (s : String) : String :=
  s.take 200

/-- Outcome of one outbound `client.Do` call: a transport-level failure, or
a response carrying its HTTP status code, raw body, and the result of
`json.Unmarshal` of the body into a string-keyed object (`none` when the
body is not a JSON object). -/
inductive FetchOutcome where
  | fail (msg : String) : FetchOutcome
  | resp (code : Nat) (body : String) (parsed : Option JObj) : FetchOutcome

/-- A fetch outcome the resolvers treat as fully successful: HTTP 200 with
a body that unmarshals into an object. -/
def FetchSuccess : FetchOutcome → Prop
  | .fail _ => False
  | .resp code _ parsed => code = 200 ∧ parsed.isSome

/-- Union of the `Configuration` structs of the three iterations (each
iteration reads only its own subset of fields). String overrides
(`openaiMonthlyBudget`, `openaiCreditBalance`, `cacheTTLSeconds`) stay
strings, as in the System Console settings. -/
structure Configuration where
  augmentEnabled : Bool
  augmentAccessToken : String
  zaiEnabled : Bool
  zaiApiKey : String
  openaiEnabled : Bool
  openaiApiKey : String
  openaiMonthlyBudget : String
  openaiCreditBalance : String
  claudeEnabled : Bool
  claudeAccessToken : String
  claudeRefreshToken : String
  claudeAdminApiKey : String
  cacheTTLSeconds : String
deriving DecidableEq, Repr

/-- Normalized Augment Code credit data (`AugmentCreditInfo`). -/
structure AugmentCreditInfo where
  planName : String
  usageRemaining : ℚ
  usageTotal : ℚ
  usageUsed : ℚ
  cycleEnd : String
  isLow : Bool
deriving DecidableEq, Repr

/-- Normalized Z.AI quota data (`ZaiQuotaInfo`). -/
structure ZaiQuotaInfo where
  planName : String
  planStatus : String
  tokensUsed : ℚ
  tokensTotal : ℚ
  tokensRemain : ℚ
  nextReset : Int
  mcpUsed : ℚ
  mcpTotal : ℚ
  mcpRemain : ℚ
deriving DecidableEq, Repr

namespace Pull

/-- Normalized OpenAI cost data of the OAuth iteration
(providers.go `OpenAIUsageInfo`): includes budget and credit balance. -/
structure OpenAIUsageInfo where
  totalCost : ℚ
  budget : ℚ
  creditBalance : ℚ
  period : String
  daysUntilReset : Int
  bucketCount : Nat
deriving DecidableEq, Repr

/-- Normalized claude.ai usage data of the OAuth iteration
(providers.go `ClaudeUsageInfo`). -/
structure ClaudeUsageInfo where
  utilization5h : ℚ
  reset5h : String
  utilization7d : ℚ
  reset7d : String
  sonnetUtil : ℚ
  opusUtil : ℚ
  hasData : Bool
deriving DecidableEq, Repr

end Pull

namespace Push

/-- Normalized OpenAI cost data of the webhook iteration
(part_004 `OpenAIUsageInfo`): no budget fields. -/
structure OpenAIUsageInfo where
  totalCost : ℚ
  period : String
  bucketCount : Nat
deriving DecidableEq, Repr

/-- Claude unified rate-limit data pushed by the external script
(part_004 `ClaudeRateLimitInfo`); header values stay strings. -/
structure ClaudeRateLimitInfo where
  authMethod : String
  utilization5h : String
  reset5h : String
  status5h : String
  utilization7d : String
  reset7d : String
  status7d : String
  overageStatus : String
  representClaim : String
  allHeaders : List (String × String)
  checkTimestamp : Int
deriving DecidableEq, Repr

/-- Webhook payload pushed by the external check script
(part_004 `claudeWebhookPayload`). -/
structure claudeWebhookPayload where
  timestamp : Int
  rateLimits : List (String × String)
  error : String
deriving DecidableEq, Repr

end Push

namespace Stub

/-- Normalized OpenAI cost data of the early iteration
(part_003 `OpenAIUsageInfo`). -/
structure OpenAIUsageInfo where
  totalCost : ℚ
  period : String
  error : String
deriving DecidableEq, Repr

/-- Claude placeholder data of the early iteration
(part_003 `ClaudeUsageInfo`). -/
structure ClaudeUsageInfo where
  message : String
deriving DecidableEq, Repr

end Stub

/-- The `Data interface` field of a `ServiceStatus`: one constructor per
provider-specific normalized shape, plus `nil` for Go `nil`. -/
inductive StatusData where
  | nil : StatusData
  | augment (info : AugmentCreditInfo) : StatusData
  | zai (info : ZaiQuotaInfo) : StatusData
  | openaiPull (info : Pull.OpenAIUsageInfo) : StatusData
  | openaiPush (info : Push.OpenAIUsageInfo) : StatusData
  | openaiStub (info : Stub.OpenAIUsageInfo) : StatusData
  | claudePull (info : Pull.ClaudeUsageInfo) : StatusData
  | claudePush (info : Push.ClaudeRateLimitInfo) : StatusData
  | claudeStub (info : Stub.ClaudeUsageInfo) : StatusData
deriving DecidableEq, Repr

/-- The normalized per-provider result (`ServiceStatus`). Go zero values
stand in for omitted fields (`Data nil` is `.nil`, omitted `CachedAt` is
0). -/
structure ServiceStatus where
  id : String
  name : String
  enabled : Bool
  status : String
  data : StatusData
  error : String
  cachedAt : Int
deriving DecidableEq, Repr

/-- One cache slot (`CacheEntry`): the cached `ServiceStatus` plus the
fetch timestamp. Only `ServiceStatus` values are ever stored, so the Go
`interface` payload is embedded at that type. -/
structure CacheEntry where
  data : ServiceStatus
  fetchedAt : Int
deriving DecidableEq, Repr

/-- The shared TTL cache `map[string]*CacheEntry`, keyed by provider id
(association list, first binding wins). -/
abbrev Cache := List (String × CacheEntry)

/-- Go map lookup on the cache. -/
def cacheLookup (cache : Cache) (key : String) : Option CacheEntry :=
  match cache with
  | [] => none
  | (k, e) :: rest => if k = key then some e else cacheLookup rest key

/-- Removal of every binding of `key` (helper realizing Go map overwrite
on the association-list representation). -/
def eraseKey : Cache → String → Cache
  | [], _ => []
  | (k, e) :: rest, key => if k = key then eraseKey rest key else (k, e) :: eraseKey rest key

/-- Embeds `setCache`: unconditionally overwrites the entry under `key`
with the given record and the current timestamp. -/
def setCache (cache : Cache) (key : String) (data : ServiceStatus) (now : Int) : Cache :=
  (key, ⟨data, now⟩) :: eraseKey cache key

/-- Embeds the wholesale invalidation `p.cache = make(map[string]*CacheEntry)`
performed on refresh and on configuration change. -/
def clearCache (_cache : Cache) : Cache := []

/-- Embeds `getCached`: absent keys miss; an entry misses once
`time.Since(entry.FetchedAt) > ttl` (note the strict comparison). -/
def getCached (cache : Cache) (key : String) (now ttl : Int) : Option ServiceStatus :=
  match cacheLookup cache key with
  | none => none
  | some entry => if now - entry.fetchedAt > ttl then none else some entry.data

/-- Go signed 64-bit integer wrap-around (two's complement), used where the
source does `int` arithmetic that could overflow. -/
def wrap64 (x : Int) : Int :=
  (x + 2 ^ 63) % 2 ^ 64 - 2 ^ 63

/-- Embeds the `Stub` iteration's `getCacheTTL` (second file of part_002):
default 300 seconds; a non-empty `CacheTTLSeconds` override is scanned
character by character, every decimal digit is folded into `parsed` (Go
`int` arithmetic, hence `wrap64`), non-digits are skipped, and the result
replaces the default only when positive. Returns seconds. -/
def getCacheTTL (cacheTTLSeconds : String) : Int :=
  if cacheTTLSeconds = "" then 300
  else
    let parsed := cacheTTLSeconds.data.foldl
      (fun acc c => if '0' ≤ c ∧ c ≤ '9' then wrap64 (acc * 10 + ((c.toNat : Int) - 48)) else acc) 0
    if parsed > 0 then parsed else 300

/-- Value denoted by the digit characters of `s`, concatenated left to
right as one decimal numeral (the specification's description of the
TTL override scan), without any machine-width bound. -/
def scannedDigitsVal (s : String) : Nat :=
  (s.data.filter Char.isDigit).foldl (fun n c => n * 10 + (c.toNat - 48)) 0

/-- Value of a list of decimal digit characters, most significant first. -/
def digitsToNat (cs : List Char) : Nat :=
  cs.foldl (fun n c => n * 10 + (c.toNat - 48)) 0

/-- Parses `cs` as an unsigned plain decimal numeral with optional
fractional part (the forms the configuration overrides and cost strings in
this repository take); `none` on any other input. -/
def parseUnsignedDec (cs : List Char) : Option ℚ :=
  let ip := cs.takeWhile Char.isDigit
  let rest := cs.dropWhile Char.isDigit
  match rest with
  | [] => if ip.isEmpty then none else some (digitsToNat ip : ℚ)
  | '.' :: fp =>
    if fp.all Char.isDigit ∧ ¬(ip.isEmpty ∧ fp.isEmpty) then
      some (((digitsToNat ip : ℚ) * 10 ^ fp.length + (digitsToNat fp : ℚ)) / 10 ^ fp.length)
    else none
  | _ => none

/-- Embeds the `val, _ := strconv.ParseFloat(s, 64)` pattern: the parsed
value, or 0 when parsing fails. Modelled for plain decimal forms (optional
sign, digits, optional fraction); the exponent/hex/inf forms `ParseFloat`
also accepts never occur in this repository's inputs. Exact rational
arithmetic stands in for float64 rounding. -/
def goParseFloat (s : String) : ℚ :=
  match s.data with
  | '-' :: cs => -((parseUnsignedDec cs).getD 0)
  | '+' :: cs => (parseUnsignedDec cs).getD 0
  | cs => (parseUnsignedDec cs).getD 0

namespace Push

/-- Embeds part_004's `parseFloat` helper (`fmt.Sscanf` with a float verb):
empty strings give 0, otherwise the longest decimal prefix is parsed and 0
is returned when no prefix parses. -/
def parseFloat (s : String) : ℚ :=
  if s = "" then 0
  else
    let (sign, cs) : ℚ × List Char :=
      match s.data with
      | '-' :: rest => (-1, rest)
      | '+' :: rest => (1, rest)
      | rest => (1, rest)
    let ip := cs.takeWhile Char.isDigit
    let rest := cs.dropWhile Char.isDigit
    let (fp, hasDot) : List Char × Bool :=
      match rest with
      | '.' :: rest2 => (rest2.takeWhile Char.isDigit, true)
      | _ => ([], false)
    if ip.isEmpty ∧ (fp.isEmpty ∨ ¬hasDot) then 0
    else sign * (((digitsToNat ip : ℚ) * 10 ^ fp.length + (digitsToNat fp : ℚ)) / 10 ^ fp.length)

end Push

/-- Result of one resolver invocation: the produced record, the cache after
the invocation, and how many `client.Do` calls were made. -/
structure ResolveResult where
  record : ServiceStatus
  cache : Cache
  calls : Nat
deriving DecidableEq, Repr

/-- Success-path normalization of `getAugmentStatus`: tolerant field
extraction from the credit-info payload, the included-per-cycle override
of the total, and the warning classification (low-balance flag, or a
remaining/included ratio under 10 percent). -/
def augmentRecordOf (raw : JObj) (now : Int) : ServiceStatus :=
  let info0 : AugmentCreditInfo :=
    { planName := "", usageRemaining := getFloat raw "usage_units_remaining",
      usageTotal := getFloat raw "usage_units_total", usageUsed := 0,
      cycleEnd := getString raw "current_billing_cycle_end_date_iso", isLow := false }
  let info1 : AugmentCreditInfo := { info0 with usageUsed := info0.usageTotal - info0.usageRemaining }
  let info2 : AugmentCreditInfo :=
    match jLookup raw "display_info" with
    | some (.obj display) => { info1 with planName := getString display "plan_display_name" }
    | _ => info1
  let info3 : AugmentCreditInfo :=
    match jLookup raw "is_credit_balance_low" with
    | some (.bool b) => { info2 with isLow := b }
    | _ => info2
  let included := getFloat raw "included_usage_units_per_billing_cycle"
  let info : AugmentCreditInfo :=
    if included > 0 then
      { info3 with usageTotal := included, usageUsed := included - info3.usageRemaining }
    else info3
  let status :=
    if info.isLow ∨ (included > 0 ∧ info.usageRemaining / included < 0.1) then "warning"
    else "ok"
  { id := "augment", name := "Augment Code", enabled := true, status := status,
    data := .augment info, error := "", cachedAt := now }

/-- Embeds `getAugmentStatus` (identical in providers.go, part_003 and
part_004): credential check, cache probe, one POST to the credit-info
endpoint, then `augmentRecordOf` on the parsed payload. -/
def getAugmentStatus (config : Configuration) (cache : Cache) (now ttl : Int)
    (world : FetchOutcome) : ResolveResult :=
  if config.augmentAccessToken = "" then
    ⟨{ id := "augment", name := "Augment Code", enabled := true, status := "error",
       data := .nil, error := "Access token not configured", cachedAt := 0 }, cache, 0⟩
  else
    match getCached cache "augment" now ttl with
    | some s => ⟨s, cache, 0⟩
    | none =>
      match world with
      | .fail msg =>
        ⟨{ id := "augment", name := "Augment Code", enabled := true, status := "error",
           data := .nil, error := "API error: " ++ msg, cachedAt := 0 }, cache, 1⟩
      | .resp code body parsed =>
        if code ≠ 200 then
          ⟨{ id := "augment", name := "Augment Code", enabled := true, status := "error",
             data := .nil, error := "HTTP " ++ toString code ++ ": " ++ truncBody body,
             cachedAt := 0 }, cache, 1⟩
        else
          match parsed with
          | none =>
            ⟨{ id := "augment", name := "Augment Code", enabled := true, status := "error",
               data := .nil,
               error := "Parse error (body: " ++ truncBody body ++ ")", cachedAt := 0 },
             cache, 1⟩
          | some raw =>
            let result := augmentRecordOf raw now
            ⟨result, setCache cache "augment" result now, 1⟩

/-- One step of the Z.AI quota-limit loop: a `TOKENS_LIMIT` entry fills the
token fields, a `TIME_LIMIT` entry the MCP fields, anything else is
skipped. -/
def zaiLimitStep (info : ZaiQuotaInfo) (l : JValue) : ZaiQuotaInfo :=
  match l with
  | .obj lm =>
    if getString lm "type" = "TOKENS_LIMIT" then
      { info with tokensUsed := getFloat lm "currentValue", tokensTotal := getFloat lm "usage",
                  tokensRemain := getFloat lm "remaining",
                  nextReset := truncToInt (getFloat lm "nextResetTime") }
    else if getString lm "type" = "TIME_LIMIT" then
      { info with mcpUsed := getFloat lm "currentValue", mcpTotal := getFloat lm "usage",
                  mcpRemain := getFloat lm "remaining" }
    else info
  | _ => info

/-- Record built by a cache-missing Z.AI resolution from its two call
outcomes: subscription fields from the first call, quota fields from the
second, each silently skipped on any failure; warning when the remaining
token fraction of a positive total is under 10 percent. -/
def zaiRecordOf (wSub wQuota : FetchOutcome) (now : Int) : ServiceStatus :=
  let info0 : ZaiQuotaInfo :=
    { planName := "", planStatus := "", tokensUsed := 0, tokensTotal := 0, tokensRemain := 0,
      nextReset := 0, mcpUsed := 0, mcpTotal := 0, mcpRemain := 0 }
  let info1 : ZaiQuotaInfo :=
    match wSub with
    | .resp _ _ (some raw) =>
      match jLookup raw "data" with
      | some (.arr (first :: _)) =>
        match first with
        | .obj sub =>
          { info0 with planName := getString sub "productName",
                       planStatus := getString sub "status" }
        | _ => info0
      | _ => info0
    | _ => info0
  let info2 : ZaiQuotaInfo :=
    match wQuota with
    | .resp _ _ (some raw) =>
      match jLookup raw "data" with
      | some (.obj d) =>
        match jLookup d "limits" with
        | some (.arr limits) => limits.foldl zaiLimitStep info1
        | _ => info1
      | _ => info1
    | _ => info1
  let status :=
    if info2.tokensTotal > 0 ∧ info2.tokensRemain / info2.tokensTotal < 0.1 then "warning"
    else "ok"
  { id := "zai", name := "Z.AI", enabled := true, status := status,
    data := .zai info2, error := "", cachedAt := now }

/-- Embeds `getZaiStatus` (identical in providers.go, part_003 and
part_004): credential check, cache probe, and two GET calls whose
failures — transport errors, non-2xx codes and unparsable bodies alike —
are silently skipped, leaving the corresponding fields at their zero
values. Both calls are always issued on a cache miss. -/
def getZaiStatus (config : Configuration) (cache : Cache) (now ttl : Int)
    (wSub wQuota : FetchOutcome) : ResolveResult :=
  if config.zaiApiKey = "" then
    ⟨{ id := "zai", name := "Z.AI", enabled := true, status := "error",
       data := .nil, error := "API key not configured", cachedAt := 0 }, cache, 0⟩
  else
    match getCached cache "zai" now ttl with
    | some s => ⟨s, cache, 0⟩
    | none =>
      let result := zaiRecordOf wSub wQuota now
      ⟨result, setCache cache "zai" result now, 2⟩

/-- Sum of all `results[].amount.value` entries of the cost buckets of the
OAuth iteration (providers.go): the amount object's `value` field is a
string parsed with `strconv.ParseFloat`, empty strings skipped. -/
def sumCostsPull (data : List JValue) : ℚ :=
  data.foldl
    (fun acc d =>
      match d with
      | .obj dm =>
        match jLookup dm "results" with
        | some (.arr results) =>
          results.foldl
            (fun acc2 r =>
              match r with
              | .obj rm =>
                match jLookup rm "amount" with
                | some (.obj amountObj) =>
                  let valStr := getString amountObj "value"
                  if valStr ≠ "" then acc2 + goParseFloat valStr else acc2
                | _ => acc2
              | _ => acc2)
            acc
        | _ => acc
      | _ => acc)
    0

/-- Sum of all `results[].amount` entries of the cost buckets of the
webhook and early iterations (part_004, part_003): the amount is numeric,
in cents, divided by 100. -/
def sumCostsCents (data : List JValue) : ℚ :=
  data.foldl
    (fun acc d =>
      match d with
      | .obj dm =>
        match jLookup dm "results" with
        | some (.arr results) =>
          results.foldl
            (fun acc2 r =>
              match r with
              | .obj rm => acc2 + getFloat rm "amount" / 100
              | _ => acc2)
            acc
        | _ => acc
      | _ => acc)
    0

namespace Pull

/-- Calendar-derived inputs of the OAuth iteration's OpenAI resolver that
the Go time library computes from `time.Now()`: the formatted month label
and the day count until the month resets. -/
structure OpenAIWorld where
  fetch : FetchOutcome
  period : String
  daysUntilReset : Int

/-- The budgeted cost the OAuth iteration's OpenAI resolver derives from a
parsed 200 payload: the summed bucket amounts. -/
def openaiCostOf (raw : JObj) : ℚ :=
  match jLookup raw "data" with
  | some (.arr data) => sumCostsPull data
  | _ => 0

/-- The configured monthly budget as the OAuth iteration's OpenAI resolver
reads it: 0 when the override is empty (and when `ParseFloat` fails). -/
def budgetOf (config : Configuration) : ℚ :=
  if config.openaiMonthlyBudget ≠ "" then goParseFloat config.openaiMonthlyBudget else 0

/-- Success-path record of the OAuth iteration's OpenAI resolver: summed
cost, configured budget and credit balance, and the classification —
warning strictly above 80 percent of a positive budget, error at or above
it. -/
def openaiRecordOf (config : Configuration) (raw : JObj) (period : String)
    (daysUntilReset now : Int) : ServiceStatus :=
  let bucketCount : Nat :=
    match jLookup raw "data" with
    | some (.arr data) => data.length
    | _ => 0
  let creditBalance : ℚ :=
    if config.openaiCreditBalance ≠ "" then goParseFloat config.openaiCreditBalance else 0
  let info : OpenAIUsageInfo :=
    { totalCost := openaiCostOf raw, budget := budgetOf config, creditBalance := creditBalance,
      period := period, daysUntilReset := daysUntilReset, bucketCount := bucketCount }
  let status := if info.budget > 0 ∧ info.totalCost / info.budget > 0.8 then "warning" else "ok"
  let status := if info.budget > 0 ∧ info.totalCost ≥ info.budget then "error" else status
  { id := "openai", name := "OpenAI", enabled := true, status := status,
    data := .openaiPull info, error := "", cachedAt := now }

/-- Embeds providers.go `getOpenAIStatus`: credential check, cache probe,
one GET to the organization cost endpoint; on non-2xx the provider error
envelope message is preferred, else the truncated raw body; bucket amounts
are summed from `amount.value` strings; warning strictly above 80 percent
of a positive configured budget, error at or above the budget. -/
def getOpenAIStatus (config : Configuration) (cache : Cache) (now ttl : Int)
    (w : OpenAIWorld) : ResolveResult :=
  if config.openaiApiKey = "" then
    ⟨{ id := "openai", name := "OpenAI", enabled := true, status := "error",
       data := .nil, error := "API key not configured", cachedAt := 0 }, cache, 0⟩
  else
    match getCached cache "openai" now ttl with
    | some s => ⟨s, cache, 0⟩
    | none =>
      match w.fetch with
      | .fail msg =>
        ⟨{ id := "openai", name := "OpenAI", enabled := true, status := "error",
           data := .nil, error := "API error: " ++ msg, cachedAt := 0 }, cache, 1⟩
      | .resp code body parsed =>
        if code ≠ 200 then
          match parsed with
          | some errResp =>
            match jLookup errResp "error" with
            | some (.obj errObj) =>
              ⟨{ id := "openai", name := "OpenAI", enabled := true, status := "error",
                 data := .nil, error := getString errObj "message", cachedAt := 0 }, cache, 1⟩
            | _ =>
              ⟨{ id := "openai", name := "OpenAI", enabled := true, status := "error",
                 data := .nil, error := "HTTP " ++ toString code ++ ": " ++ truncBody body,
                 cachedAt := 0 }, cache, 1⟩
          | none =>
            ⟨{ id := "openai", name := "OpenAI", enabled := true, status := "error",
               data := .nil, error := "HTTP " ++ toString code ++ ": " ++ truncBody body,
               cachedAt := 0 }, cache, 1⟩
        else
          match parsed with
          | none =>
            ⟨{ id := "openai", name := "OpenAI", enabled := true, status := "error",
               data := .nil, error := "Invalid JSON response", cachedAt := 0 }, cache, 1⟩
          | some raw =>
            let result := openaiRecordOf config raw w.period w.daysUntilReset now
            ⟨result, setCache cache "openai" result now, 1⟩

end Pull

namespace Push

/-- Calendar-derived input of the webhook iteration's OpenAI resolver: the
formatted start date of the rolling one-month window. -/
structure OpenAIWorld where
  fetch : FetchOutcome
  startDate : String

/-- Embeds part_004 `getOpenAIStatus`: like the OAuth iteration's but the
bucket amounts are numeric cents divided by 100, there is no budget, and
the derived status is always `ok` on a successful fetch. -/
def getOpenAIStatus (config : Configuration) (cache : Cache) (now ttl : Int)
    (w : OpenAIWorld) : ResolveResult :=
  if config.openaiApiKey = "" then
    ⟨{ id := "openai", name := "OpenAI", enabled := true, status := "error",
       data := .nil, error := "API key not configured", cachedAt := 0 }, cache, 0⟩
  else
    match getCached cache "openai" now ttl with
    | some s => ⟨s, cache, 0⟩
    | none =>
      match w.fetch with
      | .fail msg =>
        ⟨{ id := "openai", name := "OpenAI", enabled := true, status := "error",
           data := .nil, error := "API error: " ++ msg, cachedAt := 0 }, cache, 1⟩
      | .resp code body parsed =>
        if code ≠ 200 then
          match parsed with
          | some errResp =>
            match jLookup errResp "error" with
            | some (.obj errObj) =>
              ⟨{ id := "openai", name := "OpenAI", enabled := true, status := "error",
                 data := .nil, error := getString errObj "message", cachedAt := 0 }, cache, 1⟩
            | _ =>
              ⟨{ id := "openai", name := "OpenAI", enabled := true, status := "error",
                 data := .nil, error := "HTTP " ++ toString code ++ ": " ++ truncBody body,
                 cachedAt := 0 }, cache, 1⟩
          | none =>
            ⟨{ id := "openai", name := "OpenAI", enabled := true, status := "error",
               data := .nil, error := "HTTP " ++ toString code ++ ": " ++ truncBody body,
               cachedAt := 0 }, cache, 1⟩
        else
          match parsed with
          | none =>
            ⟨{ id := "openai", name := "OpenAI", enabled := true, status := "error",
               data := .nil, error := "Invalid JSON response", cachedAt := 0 }, cache, 1⟩
          | some raw =>
            let (cost, bucketCount) : ℚ × Nat :=
              match jLookup raw "data" with
              | some (.arr data) => (sumCostsCents data, data.length)
              | _ => (0, 0)
            let info : OpenAIUsageInfo :=
              { totalCost := cost, period := w.startDate ++ " to now", bucketCount := bucketCount }
            let result : ServiceStatus :=
              { id := "openai", name := "OpenAI", enabled := true, status := "ok",
                data := .openaiPush info, error := "", cachedAt := now }
            ⟨result, setCache cache "openai" result now, 1⟩

end Push

/-- Shallow rendering of a JSON value standing in for Go `fmt` verb-v
formatting of an `interface` value in part_003's OpenAI resolver; the
exact text of that diagnostic is never load-bearing here, so arrays and
maps render as placeholders. -/
def jvRender : JValue → String
  | .null => "<nil>"
  | .bool b => if b then "true" else "false"
  | .num q => toString q
  | .str s => s
  | .arr _ => "[...]"
  | .obj _ => "map[...]"

namespace Stub

/-- Calendar-derived input of the early iteration's OpenAI resolver: the
formatted start date of the rolling one-month window. -/
structure OpenAIWorld where
  fetch : FetchOutcome
  startDate : String

/-- Embeds part_003 `getOpenAIStatus`: no status-code check at all — the
body is unmarshalled regardless, an `error` key of any shape short-circuits
into an error record, amounts are cents divided by 100, status always
`ok`. -/
def getOpenAIStatus (config : Configuration) (cache : Cache) (now ttl : Int)
    (w : OpenAIWorld) : ResolveResult :=
  if config.openaiApiKey = "" then
    ⟨{ id := "openai", name := "OpenAI", enabled := true, status := "error",
       data := .nil, error := "API key not configured", cachedAt := 0 }, cache, 0⟩
  else
    match getCached cache "openai" now ttl with
    | some s => ⟨s, cache, 0⟩
    | none =>
      match w.fetch with
      | .fail msg =>
        ⟨{ id := "openai", name := "OpenAI", enabled := true, status := "error",
           data := .nil, error := "API error: " ++ msg, cachedAt := 0 }, cache, 1⟩
      | .resp _ _ parsed =>
        match parsed with
        | none =>
          ⟨{ id := "openai", name := "OpenAI", enabled := true, status := "error",
             data := .nil, error := "Invalid response", cachedAt := 0 }, cache, 1⟩
        | some raw =>
          match jLookup raw "error" with
          | some errMsg =>
            ⟨{ id := "openai", name := "OpenAI", enabled := true, status := "error",
               data := .nil, error := jvRender errMsg, cachedAt := 0 }, cache, 1⟩
          | none =>
            let cost : ℚ :=
              match jLookup raw "data" with
              | some (.arr data) => sumCostsCents data
              | _ => 0
            let info : OpenAIUsageInfo :=
              { totalCost := cost, period := w.startDate ++ " to now", error := "" }
            let result : ServiceStatus :=
              { id := "openai", name := "OpenAI", enabled := true, status := "ok",
                data := .openaiStub info, error := "", cachedAt := now }
            ⟨result, setCache cache "openai" result now, 1⟩

/-- Embeds part_003 `getClaudeStatus`: a placeholder that never performs a
network call; without an admin key it returns an uncached `ok` record, with
one it caches a fixed "coming soon" record. -/
def getClaudeStatus (config : Configuration) (cache : Cache) (now ttl : Int) : ResolveResult :=
  if config.claudeAdminApiKey = "" then
    ⟨{ id := "claude", name := "Claude (Anthropic)", enabled := true, status := "ok",
       data := .claudeStub ⟨"Admin API key not configured. Add an Anthropic Admin API key to see usage data."⟩,
       error := "", cachedAt := 0 }, cache, 0⟩
  else
    match getCached cache "claude" now ttl with
    | some s => ⟨s, cache, 0⟩
    | none =>
      let result : ServiceStatus :=
        { id := "claude", name := "Claude (Anthropic)", enabled := true, status := "ok",
          data := .claudeStub ⟨"Claude monitoring configured. Usage data coming soon."⟩,
          error := "", cachedAt := now }
      ⟨result, setCache cache "claude" result now, 0⟩

end Stub

namespace Pull

/-- Outcome of `refreshClaudeToken`: an error message, or the new access
token together with the configuration as mutated and saved via
`SavePluginConfig`. -/
inductive RefreshResult where
  | err (msg : String) : RefreshResult
  | ok (newAccess : String) (cfg : Configuration) : RefreshResult
deriving DecidableEq, Repr

/-- Embeds providers.go `refreshClaudeToken`: one POST of the
refresh-token grant; non-200 responses, unparsable bodies and an empty
`access_token` all fail; on success the access token (and the refresh
token when one is returned) is written into the configuration, which is
persisted. The unmarshal error text of the failure branch is elided. -/
def refreshClaudeToken (config : Configuration) (w : FetchOutcome) : RefreshResult :=
  match w with
  | .fail msg => .err msg
  | .resp code body parsed =>
    if code ≠ 200 then .err ("refresh HTTP " ++ toString code ++ ": " ++ truncBody body)
    else
      match parsed with
      | none => .err "invalid token response"
      | some tokenResp =>
        let newToken := getString tokenResp "access_token"
        if newToken = "" then .err "empty access_token"
        else
          let cfg1 : Configuration := { config with claudeAccessToken := newToken }
          let rt := getString tokenResp "refresh_token"
          let cfg2 : Configuration :=
            if rt ≠ "" then { cfg1 with claudeRefreshToken := rt } else cfg1
          .ok newToken cfg2

/-- Upstream responses one resolution of the OAuth iteration's Claude
resolver may consume: the first usage call, the token-refresh call, and
the single retried usage call. -/
structure ClaudeWorld where
  first : FetchOutcome
  refresh : FetchOutcome
  retry : FetchOutcome

/-- Result of one Claude (OAuth iteration) resolution, with the usage-call
count, the refresh-call count, and the configurations persisted via
`SavePluginConfig` during the resolution. -/
structure ClaudeResolveResult where
  record : ServiceStatus
  cache : Cache
  usageCalls : Nat
  refreshCalls : Nat
  saved : List Configuration
deriving Repr

/-- Tolerant extraction of the claude.ai usage payload
(providers.go `getClaudeStatus`, parsing section): any present
`utilization` field (of whatever type) sets `hasData`. -/
def claudeInfoOf (raw : JObj) : ClaudeUsageInfo :=
  let info0 : ClaudeUsageInfo :=
    { utilization5h := 0, reset5h := "", utilization7d := 0, reset7d := "",
      sonnetUtil := 0, opusUtil := 0, hasData := false }
  let info1 : ClaudeUsageInfo :=
    match jLookup raw "five_hour" with
    | some (.obj fiveHour) =>
      let a :=
        match jLookup fiveHour "utilization" with
        | some util => { info0 with utilization5h := toFloat util, hasData := true }
        | none => info0
      match jLookup fiveHour "resets_at" with
      | some (.str resetAt) => { a with reset5h := resetAt }
      | _ => a
    | _ => info0
  let info2 : ClaudeUsageInfo :=
    match jLookup raw "seven_day" with
    | some (.obj sevenDay) =>
      let a :=
        match jLookup sevenDay "utilization" with
        | some util => { info1 with utilization7d := toFloat util, hasData := true }
        | none => info1
      match jLookup sevenDay "resets_at" with
      | some (.str resetAt) => { a with reset7d := resetAt }
      | _ => a
    | _ => info1
  let info3 : ClaudeUsageInfo :=
    match jLookup raw "seven_day_sonnet" with
    | some (.obj sonnet) =>
      match jLookup sonnet "utilization" with
      | some util => { info2 with sonnetUtil := toFloat util }
      | none => info2
    | _ => info2
  match jLookup raw "seven_day_opus" with
  | some (.obj opus) =>
    match jLookup opus "utilization" with
    | some util => { info3 with opusUtil := toFloat util }
    | none => info3
  | _ => info3

/-- Common tail of the OAuth iteration's Claude resolution, operating on
the (possibly retried) response: non-200 yields the truncated error
record, unparsable JSON its own error, and a parsed payload is classified
(warning strictly above 80, error at or above 100, on either window) and
cached. -/
def finishClaude (cache : Cache) (now : Int) (code : Nat) (body : String)
    (parsed : Option JObj) : ServiceStatus × Cache :=
  if code ≠ 200 then
    ({ id := "claude", name := "claude.ai", enabled := true, status := "error",
       data := .nil, error := "HTTP " ++ toString code ++ ": " ++ truncBody body,
       cachedAt := 0 }, cache)
  else
    match parsed with
    | none =>
      ({ id := "claude", name := "claude.ai", enabled := true, status := "error",
         data := .nil, error := "Invalid JSON from usage API", cachedAt := 0 }, cache)
    | some raw =>
      let info := claudeInfoOf raw
      let status := if info.utilization5h > 80 ∨ info.utilization7d > 80 then "warning" else "ok"
      let status := if info.utilization5h ≥ 100 ∨ info.utilization7d ≥ 100 then "error" else status
      let result : ServiceStatus :=
        { id := "claude", name := "claude.ai", enabled := true, status := status,
          data := .claudePull info, error := "", cachedAt := now }
      (result, setCache cache "claude" result now)

/-- Embeds providers.go `getClaudeStatus`: enablement and credential
checks, cache probe, one usage GET; a 401/403 with a refresh token
configured triggers exactly one `refreshClaudeToken` POST, a successful
refresh persists the new tokens and retries the usage call exactly once
(keeping the original response when the retry transport-fails), and a
failed refresh falls through with the original 401/403. -/
def getClaudeStatus (config : Configuration) (cache : Cache) (now ttl : Int)
    (w : ClaudeWorld) : ClaudeResolveResult :=
  if config.claudeEnabled = false then
    ⟨{ id := "claude", name := "claude.ai", enabled := false, status := "disabled",
       data := .nil, error := "", cachedAt := 0 }, cache, 0, 0, []⟩
  else if config.claudeAccessToken = "" then
    ⟨{ id := "claude", name := "claude.ai", enabled := true, status := "error",
       data := .nil,
       error := "Access token not configured. Run the claude CLI on the server, authorize, then copy tokens from ~/.claude/.credentials.json",
       cachedAt := 0 }, cache, 0, 0, []⟩
  else
    match getCached cache "claude" now ttl with
    | some s => ⟨s, cache, 0, 0, []⟩
    | none =>
      match w.first with
      | .fail msg =>
        ⟨{ id := "claude", name := "claude.ai", enabled := true, status := "error",
           data := .nil, error := "API error: " ++ msg, cachedAt := 0 }, cache, 1, 0, []⟩
      | .resp code0 body0 parsed0 =>
        if (code0 = 401 ∨ code0 = 403) ∧ config.claudeRefreshToken ≠ "" then
          match refreshClaudeToken config w.refresh with
          | .err _ =>
            let rc := finishClaude cache now code0 body0 parsed0
            ⟨rc.1, rc.2, 1, 1, []⟩
          | .ok _newToken cfg2 =>
            match w.retry with
            | .fail _ =>
              let rc := finishClaude cache now code0 body0 parsed0
              ⟨rc.1, rc.2, 2, 1, [cfg2]⟩
            | .resp code2 body2 parsed2 =>
              let rc := finishClaude cache now code2 body2 parsed2
              ⟨rc.1, rc.2, 2, 1, [cfg2]⟩
        else
          let rc := finishClaude cache now code0 body0 parsed0
          ⟨rc.1, rc.2, 1, 0, []⟩

end Pull

namespace Push

/-- Embeds part_004 `getClaudeStatus`: no direct upstream call at all — it
serves the webhook-pushed cache entry, or a waiting-for-data placeholder
(status `warning`) before the first push. -/
def getClaudeStatus (config : Configuration) (cache : Cache) (now ttl : Int) : ResolveResult :=
  if config.claudeEnabled = false then
    ⟨{ id := "claude", name := "Claude (Anthropic)", enabled := false, status := "disabled",
       data := .nil, error := "", cachedAt := 0 }, cache, 0⟩
  else
    match getCached cache "claude" now ttl with
    | some s => ⟨s, cache, 0⟩
    | none =>
      ⟨{ id := "claude", name := "Claude (Anthropic)", enabled := true, status := "warning",
         data := .nil,
         error := "Waiting for data. Push rate limits via POST /api/v1/claude-push (use claude-check.sh cron job).",
         cachedAt := 0 }, cache, 0⟩

/-- Go map indexing `rl[key]` on the pushed rate-limit headers: the value,
or the empty string for an absent key. -/
def rlGet (rl : List (String × String)) (key : String) : String :=
  match rl with
  | [] => ""
  | (k, v) :: rest => if k = key then v else rlGet rest key

/-- Normalization of a pushed rate-limit payload into
`ClaudeRateLimitInfo` (part_004 `handleClaudePush`): the fixed set of
unified header names is extracted, everything else rides along in
`allHeaders`. -/
def claudePushInfoOf (rl : List (String × String)) (timestamp : Int) : ClaudeRateLimitInfo :=
  { authMethod := "oauth (claude.ai)",
    utilization5h := rlGet rl "anthropic-ratelimit-unified-5h-utilization",
    reset5h := rlGet rl "anthropic-ratelimit-unified-5h-reset",
    status5h := rlGet rl "anthropic-ratelimit-unified-5h-status",
    utilization7d := rlGet rl "anthropic-ratelimit-unified-7d-utilization",
    reset7d := rlGet rl "anthropic-ratelimit-unified-7d-reset",
    status7d := rlGet rl "anthropic-ratelimit-unified-7d-status",
    overageStatus := rlGet rl "anthropic-ratelimit-unified-overage-status",
    representClaim := rlGet rl "anthropic-ratelimit-unified-representative-claim",
    allHeaders := rl,
    checkTimestamp := timestamp }

/-- Status classification of a pushed payload (part_004
`handleClaudePush`): warning when the 5h utilization string parses
strictly above 0.8 (the 7d utilization is not consulted), error when
either window status string is literally rejected. -/
def claudePushStatusOf (info : ClaudeRateLimitInfo) : String :=
  let status := "ok"
  let status := if parseFloat info.utilization5h > 0.8 then "warning" else status
  if info.status5h = "rejected" ∨ info.status7d = "rejected" then "error" else status

/-- The normalized record a non-error webhook push stores: the extracted
rate-limit info, its classification, and the receipt timestamp. -/
def pushRecordOf (rl : List (String × String)) (timestamp now : Int) : ServiceStatus :=
  { id := "claude", name := "Claude (Anthropic)", enabled := true,
    status := claudePushStatusOf (claudePushInfoOf rl timestamp),
    data := .claudePush (claudePushInfoOf rl timestamp), error := "", cachedAt := now }

/-- HTTP response of the webhook endpoint together with the cache after
the request. -/
structure PushResult where
  httpCode : Nat
  body : String
  cache : Cache
deriving DecidableEq, Repr

/-- Embeds part_004 `handleClaudePush`. The request body is given as the
result of `json.Unmarshal` into `claudeWebhookPayload` (`none` when the
body is not valid JSON, answered 400 with the cache untouched; the Go
error text is elided). A payload carrying an error stores an error record
stamped now; any other payload stores the normalized record with its fetch
timestamp set 55 minutes into the future. Response bodies are
`json.NewEncoder` output, hence the trailing newline. -/
def handleClaudePush (payload : Option claudeWebhookPayload) (cache : Cache)
    (now : Int) : PushResult :=
  match payload with
  | none => ⟨400, "Invalid JSON", cache⟩
  | some p =>
    if p.error ≠ "" then
      let result : ServiceStatus :=
        { id := "claude", name := "Claude (Anthropic)", enabled := true, status := "error",
          data := .nil, error := p.error, cachedAt := now }
      ⟨200, "\x7b\"status\":\"error_stored\"\x7d\n", setCache cache "claude" result now⟩
    else
      let result := pushRecordOf p.rateLimits p.timestamp now
      ⟨200, "\x7b\"status\":\"ok\"\x7d\n", (("claude", ⟨result, now + 55 * 60⟩) :: eraseKey cache "claude" : Cache)⟩

end Push

/-- Result of one status-aggregation request: the `services` list of the
`AllServicesResponse`, the cache after the request, and the total number
of upstream `client.Do` calls it performed. -/
structure AggregateResult where
  services : List ServiceStatus
  cache : Cache
  calls : Nat
deriving Repr

/-- The disabled-provider record the webhook iteration's aggregator
synthesizes (part_001 `handleGetStatus`), identical for every provider up
to id and display name. -/
def disabledRecord (id name : String) : ServiceStatus :=
  { id := id, name := name, enabled := false, status := "disabled", data := .nil,
    error := "Not configured. Enable in System Console → Plugins → AI Limits Monitor.",
    cachedAt := 0 }

namespace Push

/-- Embeds part_001 `getCacheTTL`: a fixed five minutes, in seconds. -/
def getCacheTTL : Int := 5 * 60

/-- Upstream responses one status-aggregation request of the webhook
iteration may consume (its Claude resolver performs no upstream call). -/
structure Worlds where
  augment : FetchOutcome
  zaiSub : FetchOutcome
  zaiQuota : FetchOutcome
  openai : OpenAIWorld

/-- The augment arm of part_001 `handleGetStatus`: the resolver when
enabled, the synthesized disabled record with the configuration hint
otherwise. -/
def augmentStep (config : Configuration) (cache : Cache) (now : Int)
    (w : FetchOutcome) : ResolveResult :=
  if config.augmentEnabled then getAugmentStatus config cache now getCacheTTL w
  else ⟨disabledRecord "augment" "Augment Code", cache, 0⟩

/-- The Z.AI arm of part_001 `handleGetStatus`. -/
def zaiStep (config : Configuration) (cache : Cache) (now : Int)
    (wSub wQuota : FetchOutcome) : ResolveResult :=
  if config.zaiEnabled then getZaiStatus config cache now getCacheTTL wSub wQuota
  else ⟨disabledRecord "zai" "Z.AI", cache, 0⟩

/-- The OpenAI arm of part_001 `handleGetStatus`. -/
def openaiStep (config : Configuration) (cache : Cache) (now : Int)
    (w : OpenAIWorld) : ResolveResult :=
  if config.openaiEnabled then getOpenAIStatus config cache now getCacheTTL w
  else ⟨disabledRecord "openai" "OpenAI", cache, 0⟩

/-- The Claude arm of part_001 `handleGetStatus` (the push-variant
resolver; it already returns its own disabled record when disabled, and
the synthesized one is identical). -/
def claudeStep (config : Configuration) (cache : Cache) (now : Int) : ResolveResult :=
  if config.claudeEnabled then getClaudeStatus config cache now getCacheTTL
  else ⟨disabledRecord "claude" "Claude (Anthropic)", cache, 0⟩

/-- Embeds part_001 `handleGetStatus`: always emits one record per known
provider, in the fixed order augment, zai, openai, claude — enabled
providers through their resolvers, disabled ones as synthesized
`disabled` records with the configuration hint — threading the shared
cache through the four arms. -/
def handleGetStatus (config : Configuration) (cache : Cache) (now : Int)
    (w : Worlds) : AggregateResult :=
  let r1 := augmentStep config cache now w.augment
  let r2 := zaiStep config r1.cache now w.zaiSub w.zaiQuota
  let r3 := openaiStep config r2.cache now w.openai
  let r4 := claudeStep config r3.cache now
  ⟨[r1.record, r2.record, r3.record, r4.record], r4.cache,
    r1.calls + r2.calls + r3.calls + r4.calls⟩

/-- Embeds part_001 `handleRefresh`: wholesale cache invalidation followed
by a normal status aggregation. -/
def handleRefresh (config : Configuration) (cache : Cache) (now : Int)
    (w : Worlds) : AggregateResult :=
  handleGetStatus config (clearCache cache) now w

end Push

namespace Stub

/-- Upstream responses one status-aggregation request of the early
iteration may consume (its Claude resolver performs no upstream call). -/
structure Worlds where
  augment : FetchOutcome
  zaiSub : FetchOutcome
  zaiQuota : FetchOutcome
  openai : OpenAIWorld

/-- Embeds the early iteration's `handleGetStatus` (second file of
part_002, lines 337–367): only enabled providers contribute a record, and
when every provider is disabled a single placeholder record with id
`none` is emitted instead. -/
def handleGetStatus (config : Configuration) (cache : Cache) (now : Int)
    (w : Worlds) : AggregateResult :=
  let ttl := getCacheTTL config.cacheTTLSeconds
  let (l1, cache1, n1) :=
    if config.augmentEnabled then
      let r := getAugmentStatus config cache now ttl w.augment
      ([r.record], r.cache, r.calls)
    else (([] : List ServiceStatus), cache, 0)
  let (l2, cache2, n2) :=
    if config.zaiEnabled then
      let r := getZaiStatus config cache1 now ttl w.zaiSub w.zaiQuota
      ([r.record], r.cache, r.calls)
    else (([] : List ServiceStatus), cache1, 0)
  let (l3, cache3, n3) :=
    if config.openaiEnabled then
      let r := getOpenAIStatus config cache2 now ttl w.openai
      ([r.record], r.cache, r.calls)
    else (([] : List ServiceStatus), cache2, 0)
  let (l4, cache4, n4) :=
    if config.claudeEnabled then
      let r := getClaudeStatus config cache3 now ttl
      ([r.record], r.cache, r.calls)
    else (([] : List ServiceStatus), cache3, 0)
  let services := l1 ++ l2 ++ l3 ++ l4
  let services :=
    if services.isEmpty then
      [{ id := "none", name := "No Services Configured", enabled := false, status := "disabled",
         data := .nil,
         error := "Enable AI services in System Console → Plugins → AI Limits Monitor",
         cachedAt := 0 }]
    else services
  ⟨services, cache4, n1 + n2 + n3 + n4⟩

end Stub

/-- The configuration and cost payload used by the C6 witness and
counterexample: budget override 100, one bucket whose single result
carries the given amount string. -/
def openaiProbeConfig : Configuration :=
  ⟨false, "", false, "", true, "k", "100", "", false, "", "", "", ""⟩

/-- One-bucket cost payload whose single result amount is the given
decimal string. -/
def openaiProbeRaw (v : String) : JObj :=
  [("data", .arr [.obj [("results", .arr [.obj [("amount", .obj [("value", .str v)])]])]])]

/-- Well-formedness of reachable cache states: every entry is stored under
its own provider id (each resolver only ever stores the record it just
built under that record's id). -/
def CacheWF (cache : Cache) : Prop :=
  ∀ k e, cacheLookup cache k = some e → e.data.id = k

theorem cacheLookup_eraseKey_ne (cache : Cache) (key k : String) (h : k ≠ key) :
    cacheLookup (eraseKey cache key) k = cacheLookup cache k := by
  induction cache with
  | nil => rfl
  | cons p rest ih =>
    rcases p with ⟨k1, e1⟩
    have hk2 : ¬key = k := fun hc => h hc.symm
    by_cases hk : k1 = key
    · have hpk : ¬k1 = k := fun hc => h (hc ▸ hk)
      simp [eraseKey, hk, cacheLookup, hpk, ih, hk2]
    · by_cases hpk : k1 = k
      · simp [eraseKey, hk, cacheLookup, hpk, h, ih]
      · simp [eraseKey, hk, cacheLookup, hpk, ih, h]

theorem cacheLookup_setCache_self (cache : Cache) (key : String)
    (data : ServiceStatus) (now : Int) :
    cacheLookup (setCache cache key data now) key = some ⟨data, now⟩ := by
  simp [setCache, cacheLookup]

theorem cacheLookup_setCache_ne (cache : Cache) (key k : String)
    (data : ServiceStatus) (now : Int) (h : k ≠ key) :
    cacheLookup (setCache cache key data now) k = cacheLookup cache k := by
  have hk : ¬key = k := fun hc => h hc.symm
  simp [setCache, cacheLookup, hk, cacheLookup_eraseKey_ne cache key k h]

theorem getCached_setCache_within (cache : Cache) (key : String)
    (data : ServiceStatus) (t now ttl : Int) (h : now - t ≤ ttl) :
    getCached (setCache cache key data t) key now ttl = some data := by
  simp [getCached, cacheLookup_setCache_self, not_lt.mpr h]

theorem getCached_setCache_beyond (cache : Cache) (key : String)
    (data : ServiceStatus) (t now ttl : Int) (h : now - t > ttl) :
    getCached (setCache cache key data t) key now ttl = none := by
  simp [getCached, cacheLookup_setCache_self, h]

theorem getCached_some (cache : Cache) (key : String) (now ttl : Int)
    (s : ServiceStatus) (h : getCached cache key now ttl = some s) :
    ∃ e, cacheLookup cache key = some e ∧ e.data = s ∧ now - e.fetchedAt ≤ ttl := by
  unfold getCached at h
  rcases he : cacheLookup cache key with _ | e
  · rw [he] at h; exact absurd h (by simp)
  · rw [he] at h
    by_cases hage : now - e.fetchedAt > ttl
    · simp [hage] at h
    · simp [hage] at h
      exact ⟨e, rfl, h, not_lt.mp hage⟩

/-- C4, amended: `get` treats an entry as absent exactly when the key is
missing or its age strictly exceeds the TTL (an entry whose age equals the
TTL is still served — the source comparison is `time.Since > ttl`); `set`
unconditionally overwrites with the current timestamp, leaving other keys
untouched; wholesale invalidation empties the cache. -/
theorem claim_C4_theorem (cache : Cache) (key : String) (now ttl : Int)
    (data : ServiceStatus) :
    (getCached cache key now ttl = none ↔
      cacheLookup cache key = none ∨
        ∃ e, cacheLookup cache key = some e ∧ now - e.fetchedAt > ttl)
    ∧ cacheLookup (setCache cache key data now) key = some ⟨data, now⟩
    ∧ (∀ k, k ≠ key → cacheLookup (setCache cache key data now) k = cacheLookup cache k)
    ∧ (∀ k, cacheLookup (clearCache cache) k = none) := by
  refine ⟨?_, cacheLookup_setCache_self cache key data now,
    fun k hk => cacheLookup_setCache_ne cache key k data now hk, fun k => rfl⟩
  rcases he : cacheLookup cache key with _ | e
  · simp [getCached, he]
  · by_cases hage : now - e.fetchedAt > ttl
    · simp [getCached, he, hage]
    · simp only [getCached, he, if_neg hage]
      constructor
      · intro hx; exact absurd hx (by simp)
      · intro hx
        rcases hx with hx | ⟨e2, he2, hage2⟩
        · exact absurd hx (by simp)
        · rcases Option.some.injEq .. ▸ he2 with rfl
          exact absurd hage2 hage

/-- Witness for the amended C4 theorem at a concrete cache. -/
theorem claim_C4_witness :
    getCached [("zai", ⟨disabledRecord "zai" "Z.AI", 0⟩)] "zai" 500 300 = none := by
  have h := (claim_C4_theorem [("zai", ⟨disabledRecord "zai" "Z.AI", 0⟩)] "zai" 500 300
    (disabledRecord "zai" "Z.AI")).1
  exact h.mpr (Or.inr ⟨⟨disabledRecord "zai" "Z.AI", 0⟩, by decide⟩)

/-- C4 counterexample: the claim says an entry whose age equals the TTL is
treated as absent; the source serves it (strict comparison). With
fetch time 0, now 300 and TTL 300 the entry is returned. -/
theorem claim_C4_counterexample :
    (getCached [("augment", ⟨disabledRecord "augment" "Augment Code", 0⟩)]
      "augment" 300 300).isSome = true := by decide

theorem charRange_iff_isDigit (c : Char) : ('0' ≤ c ∧ c ≤ '9') ↔ c.isDigit = true := by
  simp [Char.isDigit, Bool.and_eq_true, decide_eq_true_iff]
  exact Iff.rfl

theorem digitFold_le (cs : List Char) (acc : Nat) :
    acc ≤ cs.foldl (fun n c => n * 10 + (c.toNat - 48)) acc := by
  induction cs generalizing acc with
  | nil => exact Nat.le_refl acc
  | cons c cs ih =>
    refine Nat.le_trans ?_ (ih (acc * 10 + (c.toNat - 48)))
    omega

theorem wrap64_eq_self (x : Int) (h0 : 0 ≤ x) (h1 : x < 2 ^ 63) : wrap64 x = x := by
  unfold wrap64
  have hm : (x + 2 ^ 63) % 2 ^ 64 = x + 2 ^ 63 := Int.emod_eq_of_lt (by omega) (by omega)
  omega

theorem ttlFold_eq (cs : List Char) (acc : Nat)
    (h : (cs.filter Char.isDigit).foldl (fun n c => n * 10 + (c.toNat - 48)) acc < 2 ^ 63) :
    cs.foldl
      (fun a c => if '0' ≤ c ∧ c ≤ '9' then wrap64 (a * 10 + ((c.toNat : Int) - 48)) else a)
      (acc : Int)
      = (Nat.cast ((cs.filter Char.isDigit).foldl (fun n c => n * 10 + (c.toNat - 48)) acc) : Int) := by
  induction cs generalizing acc with
  | nil => rfl
  | cons c cs ih =>
    by_cases hc : ('0' ≤ c ∧ c ≤ '9')
    · have hd : c.isDigit = true := (charRange_iff_isDigit c).mp hc
      have h48 : 48 ≤ c.toNat := hc.1
      have hcast : (acc : Int) * 10 + ((c.toNat : Int) - 48)
          = ((acc * 10 + (c.toNat - 48) : Nat) : Int) := by
        push_cast [Nat.cast_sub h48]
        ring
      rw [List.filter_cons_of_pos hd] at h ⊢
      rw [List.foldl_cons] at h ⊢
      rw [List.foldl_cons, if_pos hc, hcast]
      have hstep : acc * 10 + (c.toNat - 48)
          ≤ (cs.filter Char.isDigit).foldl (fun n c => n * 10 + (c.toNat - 48))
              (acc * 10 + (c.toNat - 48)) := digitFold_le _ _
      rw [wrap64_eq_self _ (by positivity) (by exact_mod_cast Nat.lt_of_le_of_lt hstep h)]
      exact ih _ h
    · have hd : ¬c.isDigit = true := fun hcd => hc ((charRange_iff_isDigit c).mpr hcd)
      rw [List.filter_cons_of_neg (by simpa using hd)] at h ⊢
      rw [List.foldl_cons, if_neg hc]
      exact ih acc h

/-- C9: the cache TTL is derived from the `CacheTTLSeconds` override by
scanning only its digit characters, concatenated left to right as a
decimal number of seconds; an empty override, an override without digits,
and digits forming 0 all fall back silently to the 300-second default.
(The hypothesis keeps the scanned value inside the Go `int` range, where
the source's machine arithmetic does not wrap.) -/
theorem claim_C9_theorem (s : String) (h : scannedDigitsVal s < 2 ^ 63) :
    getCacheTTL s = if scannedDigitsVal s = 0 then 300 else (scannedDigitsVal s : Int) := by
  unfold getCacheTTL
  by_cases hs : s = ""
  · subst hs
    simp [scannedDigitsVal]
  · rw [if_neg hs]
    have hfold := ttlFold_eq s.data 0 (h)
    simp only [Nat.cast_zero] at hfold
    simp only [scannedDigitsVal] at *
    rw [hfold]
    by_cases hz : (s.data.filter Char.isDigit).foldl (fun n c => n * 10 + (c.toNat - 48)) 0 = 0
    · simp [hz]
    · have hpos : 0 < (s.data.filter Char.isDigit).foldl (fun n c => n * 10 + (c.toNat - 48)) 0 :=
        Nat.pos_of_ne_zero hz
      rw [if_pos (by exact_mod_cast hpos), if_neg hz]

/-- Witness for C9 at the override string 1m30, whose digits scan to 130 seconds. -/
theorem claim_C9_witness :
    scannedDigitsVal "1m30" < 2 ^ 63 ∧
      getCacheTTL "1m30" = if scannedDigitsVal "1m30" = 0 then 300 else (scannedDigitsVal "1m30" : Int) :=
  ⟨by decide, claim_C9_theorem "1m30" (by decide)⟩

theorem augment_cached (config : Configuration) (cache : Cache) (now ttl : Int)
    (w : FetchOutcome) (s : ServiceStatus) (htok : ¬config.augmentAccessToken = "")
    (hhit : getCached cache "augment" now ttl = some s) :
    getAugmentStatus config cache now ttl w = ⟨s, cache, 0⟩ := by
  unfold getAugmentStatus
  rw [if_neg htok, hhit]

theorem augment_miss_success (config : Configuration) (cache : Cache) (now ttl : Int)
    (body : String) (raw : JObj) (htok : ¬config.augmentAccessToken = "")
    (hmiss : getCached cache "augment" now ttl = none) :
    getAugmentStatus config cache now ttl (.resp 200 body (some raw))
      = ⟨augmentRecordOf raw now, setCache cache "augment" (augmentRecordOf raw now) now, 1⟩ := by
  unfold getAugmentStatus
  rw [if_neg htok, hmiss]
  simp

theorem augment_miss_calls (config : Configuration) (cache : Cache) (now ttl : Int)
    (w : FetchOutcome) (htok : ¬config.augmentAccessToken = "")
    (hmiss : getCached cache "augment" now ttl = none) :
    (getAugmentStatus config cache now ttl w).calls = 1 := by
  unfold getAugmentStatus
  rw [if_neg htok, hmiss]
  cases w with
  | fail msg => simp
  | resp code body parsed =>
    by_cases hcode : code ≠ 200
    · simp [hcode]
    · rcases parsed with _ | raw <;> simp [hcode]

theorem augment_calls_le_one (config : Configuration) (cache : Cache) (now ttl : Int)
    (w : FetchOutcome) :
    (getAugmentStatus config cache now ttl w).calls ≤ 1 := by
  by_cases htok : config.augmentAccessToken = ""
  · simp [getAugmentStatus, htok]
  · rcases hc : getCached cache "augment" now ttl with _ | s
    · exact Nat.le_of_eq (augment_miss_calls config cache now ttl w htok hc)
    · rw [augment_cached config cache now ttl w s htok hc]
      simp

theorem truncBody_length_le (s : String) : (truncBody s).length ≤ 200 := by
  rw [truncBody, String.length, String.data_take]
  exact le_trans (Nat.le_of_eq rfl) (List.length_take_le 200 s.1)

/-- C3 counterexample: the Z.AI resolver silently converts upstream
failure into an ok record. With credentials configured, an empty cache and
both calls transport-failing, the produced record has status ok and an
empty error field (the claim requires status error for every resolver). -/
theorem claim_C3_counterexample :
    (getZaiStatus ⟨false, "", false, "key", false, "", "", "", false, "", "", "", ""⟩ [] 0 300
      (.fail "connection refused") (.fail "connection refused")).record.status = "ok"
    ∧ (getZaiStatus ⟨false, "", false, "key", false, "", "", "", false, "", "", "", ""⟩ [] 0 300
      (.fail "connection refused") (.fail "connection refused")).record.error = "" := by
  constructor <;> rfl

theorem openai_success (config : Configuration) (cache : Cache) (now ttl d : Int)
    (p body : String) (raw : JObj) (hkey : ¬config.openaiApiKey = "")
    (hmiss : getCached cache "openai" now ttl = none) :
    Pull.getOpenAIStatus config cache now ttl ⟨.resp 200 body (some raw), p, d⟩
      = ⟨Pull.openaiRecordOf config raw p d now,
         setCache cache "openai" (Pull.openaiRecordOf config raw p d now) now, 1⟩ := by
  unfold Pull.getOpenAIStatus
  rw [if_neg hkey, hmiss]
  simp

theorem openaiRecordOf_status (config : Configuration) (raw : JObj) (p : String)
    (d now : Int) :
    (Pull.openaiRecordOf config raw p d now).status
      = (if Pull.budgetOf config > 0 ∧ Pull.openaiCostOf raw ≥ Pull.budgetOf config then "error"
         else if Pull.budgetOf config > 0
              ∧ Pull.openaiCostOf raw / Pull.budgetOf config > 0.8 then "warning"
         else "ok") := by
  unfold Pull.openaiRecordOf
  by_cases h1 : Pull.budgetOf config > 0 ∧ Pull.openaiCostOf raw ≥ Pull.budgetOf config
  · simp [h1]
  · by_cases h2 : Pull.budgetOf config > 0
        ∧ Pull.openaiCostOf raw / Pull.budgetOf config > 0.8
    · simp [h1, h2]
    · simp [h1, h2]

/-- C6, amended: on a successful fetch the cost-tracking provider's status
is error when the summed cost reaches a positive configured budget,
warning when the cost exceeds — strictly — 80 percent of it, and ok
otherwise; with no (or no positive) budget configured it is always ok.
(The claim's "warning begins at 80 percent" is off by the strictness: at
exactly 80 percent the source reports ok, see the counterexample.) -/
theorem claim_C6_theorem (config : Configuration) (cache : Cache) (now ttl d : Int)
    (p body : String) (raw : JObj) (hkey : config.openaiApiKey ≠ "")
    (hmiss : getCached cache "openai" now ttl = none) :
    (Pull.getOpenAIStatus config cache now ttl ⟨.resp 200 body (some raw), p, d⟩).record.status
      = (if Pull.budgetOf config > 0 ∧ Pull.openaiCostOf raw ≥ Pull.budgetOf config then "error"
         else if Pull.budgetOf config > 0
              ∧ Pull.openaiCostOf raw / Pull.budgetOf config > 0.8 then "warning"
         else "ok")
    ∧ (Pull.budgetOf config ≤ 0 →
      (Pull.getOpenAIStatus config cache now ttl
        ⟨.resp 200 body (some raw), p, d⟩).record.status = "ok") := by
  rw [openai_success config cache now ttl d p body raw hkey hmiss]
  refine ⟨openaiRecordOf_status config raw p d now, fun hb => ?_⟩
  rw [openaiRecordOf_status config raw p d now]
  rw [if_neg (fun h => absurd h.1 (not_lt.mpr hb)), if_neg (fun h => absurd h.1 (not_lt.mpr hb))]

theorem openaiProbe_budget : Pull.budgetOf openaiProbeConfig = 100 := by decide

theorem openaiProbe_cost (v : String) :
    Pull.openaiCostOf (openaiProbeRaw v) = goParseFloat v := by
  by_cases hv : v = ""
  · simp [Pull.openaiCostOf, openaiProbeRaw, sumCostsPull, jLookup, getString, hv, goParseFloat,
      parseUnsignedDec, digitsToNat]
  · simp [Pull.openaiCostOf, openaiProbeRaw, sumCostsPull, jLookup, getString, hv]

/-- Witness for C6: budget 100 and a summed cost of 85 classify as
warning. -/
theorem claim_C6_witness :
    (Pull.getOpenAIStatus openaiProbeConfig [] 0 300
      ⟨.resp 200 "" (some (openaiProbeRaw "85")), "Jan 2026", 5⟩).record.status = "warning" := by
  have h := (claim_C6_theorem openaiProbeConfig [] 0 300 5 "Jan 2026" ""
    (openaiProbeRaw "85") (by decide) rfl).1
  rw [h, openaiProbe_budget, openaiProbe_cost]
  have h85 : goParseFloat "85" = 85 := by decide
  rw [h85]
  norm_num

/-- C6 counterexample: at exactly 80 percent of the budget (budget 100,
summed cost 80) the source classifies ok, not warning — "warning begins
at 80 percent of the configured budget" fails at its own boundary. -/
theorem claim_C6_counterexample :
    (Pull.getOpenAIStatus openaiProbeConfig [] 0 300
      ⟨.resp 200 "" (some (openaiProbeRaw "80")), "Jan 2026", 5⟩).record.status = "ok" := by
  rw [openai_success openaiProbeConfig [] 0 300 5 "Jan 2026" "" (openaiProbeRaw "80")
    (by decide) rfl]
  rw [openaiRecordOf_status, openaiProbe_budget, openaiProbe_cost]
  have h80 : goParseFloat "80" = 80 := by decide
  rw [h80]
  norm_num

theorem push_ok_eq (rl : List (String × String)) (ts : Int) (cache : Cache) (now : Int) :
    Push.handleClaudePush (some ⟨ts, rl, ""⟩) cache now
      = ⟨200, "\x7b\"status\":\"ok\"\x7d\n",
          ("claude", ⟨Push.pushRecordOf rl ts now, now + 55 * 60⟩) :: eraseKey cache "claude"⟩ := by
  unfold Push.handleClaudePush
  simp

theorem push_error_eq (rl : List (String × String)) (ts : Int) (emsg : String)
    (cache : Cache) (now : Int) (hemsg : emsg ≠ "") :
    Push.handleClaudePush (some ⟨ts, rl, emsg⟩) cache now
      = ⟨200, "\x7b\"status\":\"error_stored\"\x7d\n",
          setCache cache "claude"
            { id := "claude", name := "Claude (Anthropic)", enabled := true, status := "error",
              data := .nil, error := emsg, cachedAt := now } now⟩ := by
  unfold Push.handleClaudePush
  simp [hemsg]

theorem push_claude_cached (config : Configuration) (cache : Cache) (now ttl : Int)
    (s : ServiceStatus) (hen : config.claudeEnabled = true)
    (hhit : getCached cache "claude" now ttl = some s) :
    Push.getClaudeStatus config cache now ttl = ⟨s, cache, 0⟩ := by
  unfold Push.getClaudeStatus
  rw [if_neg (by simp [hen]), hhit]

theorem claudePushStatusOf_eq (info : Push.ClaudeRateLimitInfo) :
    Push.claudePushStatusOf info
      = (if info.status5h = "rejected" ∨ info.status7d = "rejected" then "error"
         else if Push.parseFloat info.utilization5h > 0.8 then "warning" else "ok") := by
  unfold Push.claudePushStatusOf
  by_cases h1 : info.status5h = "rejected" ∨ info.status7d = "rejected"
  · simp [h1]
  · by_cases h2 : Push.parseFloat info.utilization5h > 0.8 <;> simp [h1, h2]

theorem finishClaude_status (cache : Cache) (now : Int) (body : String) (raw : JObj) :
    (Pull.finishClaude cache now 200 body (some raw)).1.status
      = (if (Pull.claudeInfoOf raw).utilization5h ≥ 100
            ∨ (Pull.claudeInfoOf raw).utilization7d ≥ 100 then "error"
         else if (Pull.claudeInfoOf raw).utilization5h > 80
            ∨ (Pull.claudeInfoOf raw).utilization7d > 80 then "warning"
         else "ok") := by
  unfold Pull.finishClaude
  by_cases h1 : (Pull.claudeInfoOf raw).utilization5h ≥ 100
      ∨ (Pull.claudeInfoOf raw).utilization7d ≥ 100
  · simp [h1]
  · by_cases h2 : (Pull.claudeInfoOf raw).utilization5h > 80
        ∨ (Pull.claudeInfoOf raw).utilization7d > 80 <;> simp [h1, h2]

theorem pull_claude_200 (config : Configuration) (cache : Cache) (now ttl : Int)
    (w : Pull.ClaudeWorld) (body : String) (raw : JObj)
    (hen : config.claudeEnabled = true) (htok : config.claudeAccessToken ≠ "")
    (hmiss : getCached cache "claude" now ttl = none)
    (hfirst : w.first = .resp 200 body (some raw)) :
    (Pull.getClaudeStatus config cache now ttl w).record.status
      = (if (Pull.claudeInfoOf raw).utilization5h ≥ 100
            ∨ (Pull.claudeInfoOf raw).utilization7d ≥ 100 then "error"
         else if (Pull.claudeInfoOf raw).utilization5h > 80
            ∨ (Pull.claudeInfoOf raw).utilization7d > 80 then "warning"
         else "ok") := by
  rw [← finishClaude_status cache now body raw]
  simp [Pull.getClaudeStatus, hen, htok, hmiss, hfirst]

/-- C7, amended: the two implementations split the claim's thresholds. The
webhook (push) variant classifies a pushed payload as warning only when
the 5h utilization string parses strictly above 0.8 (the 7d utilization is
ignored — see the counterexample) and as error only when either window's
status string is rejected (no 100-percent check); the OAuth (pull) variant
warns when either utilization exceeds 80 and errors when either reaches
100 (it has no rejection statuses). A push whose 5h utilization is 0.95
does store a warning record which the push-variant resolver then serves
from cache with no upstream call. -/
theorem claim_C7_theorem (config : Configuration) (cache : Cache)
    (rl : List (String × String)) (ts now now2 ttl : Int) (w : Pull.ClaudeWorld)
    (body : String) (raw : JObj) :
    (cacheLookup (Push.handleClaudePush (some ⟨ts, rl, ""⟩) cache now).cache "claude"
      = some ⟨Push.pushRecordOf rl ts now, now + 55 * 60⟩)
    ∧ ((Push.pushRecordOf rl ts now).status
      = (if Push.rlGet rl "anthropic-ratelimit-unified-5h-status" = "rejected"
            ∨ Push.rlGet rl "anthropic-ratelimit-unified-7d-status" = "rejected" then "error"
         else if Push.parseFloat (Push.rlGet rl "anthropic-ratelimit-unified-5h-utilization")
              > 0.8 then "warning"
         else "ok"))
    ∧ (config.claudeEnabled = true → config.claudeAccessToken ≠ "" →
      getCached cache "claude" now ttl = none → w.first = .resp 200 body (some raw) →
      (Pull.getClaudeStatus config cache now ttl w).record.status
        = (if (Pull.claudeInfoOf raw).utilization5h ≥ 100
              ∨ (Pull.claudeInfoOf raw).utilization7d ≥ 100 then "error"
           else if (Pull.claudeInfoOf raw).utilization5h > 80
              ∨ (Pull.claudeInfoOf raw).utilization7d > 80 then "warning"
           else "ok"))
    ∧ ((Push.pushRecordOf
          [("anthropic-ratelimit-unified-5h-utilization", "0.95")] ts now).status = "warning")
    ∧ (config.claudeEnabled = true → now2 - (now + 55 * 60) ≤ ttl →
      Push.getClaudeStatus config
        (Push.handleClaudePush
          (some ⟨ts, [("anthropic-ratelimit-unified-5h-utilization", "0.95")], ""⟩)
          cache now).cache now2 ttl
        = ⟨Push.pushRecordOf [("anthropic-ratelimit-unified-5h-utilization", "0.95")] ts now,
            (Push.handleClaudePush
              (some ⟨ts, [("anthropic-ratelimit-unified-5h-utilization", "0.95")], ""⟩)
              cache now).cache, 0⟩) := by
  have h95 : Push.parseFloat "0.95"
      = (1 : ℚ) * (((digitsToNat ['0'] : ℚ) * 10 ^ List.length ['9', '5']
          + (digitsToNat ['9', '5'] : ℚ)) / 10 ^ List.length ['9', '5']) := rfl
  have h95gt : Push.parseFloat "0.95" > 0.8 := by
    rw [h95]
    have d1 : digitsToNat ['0'] = 0 := by decide
    have d2 : digitsToNat ['9', '5'] = 95 := by decide
    rw [d1, d2]
    norm_num
  refine ⟨?_, ?_, ?_, ?_, ?_⟩
  · rw [push_ok_eq]
    simp [cacheLookup]
  · exact claudePushStatusOf_eq (Push.claudePushInfoOf rl ts)
  · intro hen htok hmiss hfirst
    exact pull_claude_200 config cache now ttl w body raw hen htok hmiss hfirst
  · rw [show (Push.pushRecordOf
        [("anthropic-ratelimit-unified-5h-utilization", "0.95")] ts now).status
      = Push.claudePushStatusOf (Push.claudePushInfoOf
          [("anthropic-ratelimit-unified-5h-utilization", "0.95")] ts) from rfl]
    rw [claudePushStatusOf_eq]
    rw [if_neg (show ¬((Push.claudePushInfoOf
        [("anthropic-ratelimit-unified-5h-utilization", "0.95")] ts).status5h = "rejected"
        ∨ (Push.claudePushInfoOf
        [("anthropic-ratelimit-unified-5h-utilization", "0.95")] ts).status7d = "rejected")
      from fun h => by
        rcases h with h | h <;> exact absurd (show ("" : String) = "rejected" from h) (by decide))]
    rw [if_pos (show Push.parseFloat (Push.claudePushInfoOf
        [("anthropic-ratelimit-unified-5h-utilization", "0.95")] ts).utilization5h > 0.8
      from h95gt)]
  · intro hen hage
    rw [push_ok_eq]
    exact push_claude_cached config _ now2 ttl _ hen
      (by
        rw [show (("claude", ⟨Push.pushRecordOf
            [("anthropic-ratelimit-unified-5h-utilization", "0.95")] ts now, now + 55 * 60⟩)
            :: eraseKey cache "claude" : Cache)
          = setCache cache "claude"
              (Push.pushRecordOf
                [("anthropic-ratelimit-unified-5h-utilization", "0.95")] ts now)
              (now + 55 * 60) from rfl]
        exact getCached_setCache_within cache "claude" _ (now + 55 * 60) now2 ttl hage)

/-- Witness for C7 at a concrete payload, configuration and times. -/
theorem claim_C7_witness :
    Push.getClaudeStatus ⟨false, "", false, "", false, "", "", "", true, "", "", "", ""⟩
      (Push.handleClaudePush
        (some ⟨1700000000, [("anthropic-ratelimit-unified-5h-utilization", "0.95")], ""⟩)
        [] 0).cache 600 300
      = ⟨Push.pushRecordOf [("anthropic-ratelimit-unified-5h-utilization", "0.95")] 1700000000 0,
          (Push.handleClaudePush
            (some ⟨1700000000, [("anthropic-ratelimit-unified-5h-utilization", "0.95")], ""⟩)
            [] 0).cache, 0⟩ := by
  exact (claim_C7_theorem ⟨false, "", false, "", false, "", "", "", true, "", "", "", ""⟩
    [] [] 1700000000 0 600 300 ⟨.fail "", .fail "", .fail ""⟩ "" []).2.2.2.2 rfl (by decide)

/-- C7 counterexample: a push whose only utilization datum is the 7d
window at 0.95 is stored with status ok — the claim's "warning if either
utilization window exceeds 80 percent" fails for the 7d window under the
webhook implementation. -/
theorem claim_C7_counterexample :
    (cacheLookup (Push.handleClaudePush
        (some ⟨1700000000, [("anthropic-ratelimit-unified-7d-utilization", "0.95")], ""⟩)
        [] 0).cache "claude").map (fun e => e.data.status) = some "ok" := by
  rw [push_ok_eq]
  simp [cacheLookup]
  rw [show (Push.pushRecordOf
      [("anthropic-ratelimit-unified-7d-utilization", "0.95")] 1700000000 0).status
    = Push.claudePushStatusOf (Push.claudePushInfoOf
        [("anthropic-ratelimit-unified-7d-utilization", "0.95")] 1700000000) from rfl]
  rw [claudePushStatusOf_eq]
  rw [if_neg (by decide)]
  rw [if_neg (by
    rw [show Push.parseFloat (Push.claudePushInfoOf
        [("anthropic-ratelimit-unified-7d-utilization", "0.95")] 1700000000).utilization5h
      = Push.parseFloat "" from rfl]
    rw [show Push.parseFloat "" = 0 from rfl]
    norm_num)]

/-- C8: a request body that does not unmarshal is answered 400 and leaves
the cache untouched; a well-formed payload with a non-empty error field
stores a status-error record under the claude key (stamped with the
receipt time) and answers error_stored; any other well-formed payload
stores the normalized record and answers ok. -/
theorem claim_C8_theorem (cache : Cache) (now : Int) (p : Push.claudeWebhookPayload) :
    (Push.handleClaudePush none cache now = ⟨400, "Invalid JSON", cache⟩)
    ∧ (p.error ≠ "" →
        Push.handleClaudePush (some p) cache now
          = ⟨200, "\x7b\"status\":\"error_stored\"\x7d\n",
              setCache cache "claude"
                { id := "claude", name := "Claude (Anthropic)", enabled := true,
                  status := "error", data := .nil, error := p.error, cachedAt := now } now⟩)
    ∧ (p.error = "" →
        Push.handleClaudePush (some p) cache now
          = ⟨200, "\x7b\"status\":\"ok\"\x7d\n",
              ("claude", ⟨Push.pushRecordOf p.rateLimits p.timestamp now, now + 55 * 60⟩)
                :: eraseKey cache "claude"⟩) := by
  rcases p with ⟨ts, rl, emsg⟩
  refine ⟨rfl, ?_, ?_⟩
  · intro hemsg
    exact push_error_eq rl ts emsg cache now hemsg
  · intro hemsg
    subst hemsg
    exact push_ok_eq rl ts cache now

/-- Witness for C8 at concrete payloads. -/
theorem claim_C8_witness :
    Push.handleClaudePush (some ⟨5, [], "boom"⟩) [] 7
      = ⟨200, "\x7b\"status\":\"error_stored\"\x7d\n",
          setCache [] "claude"
            { id := "claude", name := "Claude (Anthropic)", enabled := true,
              status := "error", data := .nil, error := "boom", cachedAt := 7 } 7⟩ := by
  exact (claim_C8_theorem [] 7 ⟨5, [], "boom"⟩).2.1 (by decide)

/-- C10: an accepted (non-error) webhook push stores the claude entry with
fetch timestamp equal to the receipt time plus 55 minutes; the payload's
own timestamp field never influences that timestamp; and the entry is
served as a cache hit exactly while now minus the receipt time is at most
55 minutes plus the configured TTL. -/
theorem claim_C10_theorem (rl : List (String × String)) (ts ts2 now now2 ttl : Int)
    (cache : Cache) :
    (cacheLookup (Push.handleClaudePush (some ⟨ts, rl, ""⟩) cache now).cache "claude"
      = some ⟨Push.pushRecordOf rl ts now, now + 55 * 60⟩)
    ∧ ((cacheLookup (Push.handleClaudePush (some ⟨ts, rl, ""⟩) cache now).cache "claude").map
          (fun e => e.fetchedAt)
        = (cacheLookup (Push.handleClaudePush (some ⟨ts2, rl, ""⟩) cache now).cache "claude").map
          (fun e => e.fetchedAt))
    ∧ ((getCached (Push.handleClaudePush (some ⟨ts, rl, ""⟩) cache now).cache "claude"
          now2 ttl).isSome = true ↔ now2 - now ≤ 55 * 60 + ttl) := by
  refine ⟨?_, ?_, ?_⟩
  · rw [push_ok_eq]
    simp [cacheLookup]
  · rw [push_ok_eq, push_ok_eq]
    simp [cacheLookup]
  · rw [push_ok_eq]
    by_cases hage : now2 - (now + 55 * 60) > ttl
    · simp [getCached, cacheLookup, hage]
      omega
    · simp [getCached, cacheLookup, hage]
      omega

/-- Witness for C10: a push received at time 0 is still a cache hit at
time 3500 with a TTL of 300 (3500 is at most 3300 plus 300). -/
theorem claim_C10_witness :
    (getCached (Push.handleClaudePush (some ⟨1700000000, [], ""⟩) [] 0).cache "claude"
      3500 300).isSome = true := by
  exact (claim_C10_theorem [] 1700000000 0 0 3500 300 []).2.2.mpr (by decide)

theorem finishClaude_non200 (cache : Cache) (now : Int) (code : Nat) (body : String)
    (parsed : Option JObj) (hcode : code ≠ 200) :
    Pull.finishClaude cache now code body parsed
      = ({ id := "claude", name := "claude.ai", enabled := true, status := "error",
           data := .nil, error := "HTTP " ++ toString code ++ ": " ++ truncBody body,
           cachedAt := 0 }, cache) := by
  unfold Pull.finishClaude
  rw [if_pos hcode]

theorem claude_refresh_bounds (config : Configuration) (cache : Cache) (now ttl : Int)
    (w : Pull.ClaudeWorld) :
    (Pull.getClaudeStatus config cache now ttl w).refreshCalls ≤ 1
    ∧ (Pull.getClaudeStatus config cache now ttl w).usageCalls ≤ 2
    ∧ (Pull.getClaudeStatus config cache now ttl w).saved.length ≤ 1 := by
  unfold Pull.getClaudeStatus
  rcases w with ⟨first, refresh, retry⟩
  by_cases h1 : config.claudeEnabled = false
  · simp [h1]
  · by_cases h2 : config.claudeAccessToken = ""
    · simp [h1, h2]
    · rcases hc : getCached cache "claude" now ttl with _ | s
      · cases first with
        | fail msg => simp [h1, h2, hc]
        | resp code0 body0 parsed0 =>
          by_cases h3 : (code0 = 401 ∨ code0 = 403) ∧ config.claudeRefreshToken ≠ ""
          · rcases hr : Pull.refreshClaudeToken config refresh with _ | ⟨tok, cfg2⟩
            · simp [h1, h2, hc, h3, hr]
            · cases retry <;> simp [h1, h2, hc, h3, hr]
          · simp [h1, h2, hc, h3]
      · simp [h1, h2, hc]

/-- C5: one Claude (OAuth) resolution performs at most one refresh POST
(and at most one retried usage call and one config save); a successful
refresh of a 401/403 persists exactly the configuration carrying the new
access token — and the new refresh token when one is returned — and
retries the usage request exactly once; a failed refresh surfaces the
original 401/403 as an error record, with no retry and nothing saved. -/
theorem claim_C5_theorem (config : Configuration) (cache : Cache) (now ttl : Int)
    (w : Pull.ClaudeWorld) (code : Nat) (body rbody : String) (parsed : Option JObj)
    (tokenResp : JObj) (tok : String) (cfg2 : Configuration) :
    ((Pull.getClaudeStatus config cache now ttl w).refreshCalls ≤ 1
      ∧ (Pull.getClaudeStatus config cache now ttl w).usageCalls ≤ 2
      ∧ (Pull.getClaudeStatus config cache now ttl w).saved.length ≤ 1)
    ∧ (Pull.refreshClaudeToken config (.resp 200 rbody (some tokenResp)) = .ok tok cfg2 →
        tok = getString tokenResp "access_token"
        ∧ cfg2.claudeAccessToken = tok
        ∧ (getString tokenResp "refresh_token" ≠ "" →
            cfg2.claudeRefreshToken = getString tokenResp "refresh_token")
        ∧ (getString tokenResp "refresh_token" = "" →
            cfg2.claudeRefreshToken = config.claudeRefreshToken))
    ∧ (config.claudeEnabled = true → config.claudeAccessToken ≠ "" →
        getCached cache "claude" now ttl = none →
        w.first = .resp code body parsed → (code = 401 ∨ code = 403) →
        config.claudeRefreshToken ≠ "" →
        (Pull.refreshClaudeToken config w.refresh = .ok tok cfg2 →
          (Pull.getClaudeStatus config cache now ttl w).saved = [cfg2]
          ∧ (Pull.getClaudeStatus config cache now ttl w).refreshCalls = 1
          ∧ (Pull.getClaudeStatus config cache now ttl w).usageCalls = 2)
        ∧ (∀ emsg, Pull.refreshClaudeToken config w.refresh = .err emsg →
          (Pull.getClaudeStatus config cache now ttl w).record.status = "error"
          ∧ (Pull.getClaudeStatus config cache now ttl w).record.error
              = "HTTP " ++ toString code ++ ": " ++ truncBody body
          ∧ (Pull.getClaudeStatus config cache now ttl w).usageCalls = 1
          ∧ (Pull.getClaudeStatus config cache now ttl w).refreshCalls = 1
          ∧ (Pull.getClaudeStatus config cache now ttl w).saved = [])) := by
  refine ⟨claude_refresh_bounds config cache now ttl w, ?_, ?_⟩
  · intro h
    unfold Pull.refreshClaudeToken at h
    simp only [show ¬(200 ≠ 200) by simp, if_false, reduceIte] at h
    by_cases hat : getString tokenResp "access_token" = ""
    · simp [hat] at h
    · simp only [hat, if_neg hat, reduceIte] at h
      obtain ⟨htk, hcfg⟩ := Pull.RefreshResult.ok.inj h
      subst htk
      subst hcfg
      refine ⟨rfl, ?_, ?_, ?_⟩
      · by_cases hrt : getString tokenResp "refresh_token" ≠ "" <;> simp [hrt]
      · intro hrt; simp [hrt]
      · intro hrt; simp [hrt]
  · intro hen htok hmiss hfirst hcode hrt
    have hcond : (code = 401 ∨ code = 403) ∧ config.claudeRefreshToken ≠ "" := ⟨hcode, hrt⟩
    have hc200 : code ≠ 200 := by rcases hcode with h | h <;> omega
    rcases w with ⟨first, refresh, retry⟩
    simp only at hfirst
    subst hfirst
    constructor
    · intro hok
      simp only at hok
      cases retry with
      | fail msg =>
        simp [Pull.getClaudeStatus, hen, htok, hmiss, hcond, hok]
      | resp code2 body2 parsed2 =>
        simp [Pull.getClaudeStatus, hen, htok, hmiss, hcond, hok]
    · intro emsg herr
      simp only at herr
      simp [Pull.getClaudeStatus, hen, htok, hmiss, hcond, herr,
        finishClaude_non200 cache now code body parsed hc200]

/-- Witness for C5: a 401 followed by a successful refresh persists the
new token pair and retries exactly once. -/
theorem claim_C5_witness :
    (Pull.getClaudeStatus ⟨false, "", false, "", false, "", "", "", true, "old", "r1", "", ""⟩
        [] 0 300
        ⟨.resp 401 "unauthorized" none,
         .resp 200 "" (some [("access_token", .str "new"), ("refresh_token", .str "r2")]),
         .resp 200 "" (some [])⟩).saved
      = [⟨false, "", false, "", false, "", "", "", true, "new", "r2", "", ""⟩]
    ∧ (Pull.getClaudeStatus ⟨false, "", false, "", false, "", "", "", true, "old", "r1", "", ""⟩
        [] 0 300
        ⟨.resp 401 "unauthorized" none,
         .resp 200 "" (some [("access_token", .str "new"), ("refresh_token", .str "r2")]),
         .resp 200 "" (some [])⟩).refreshCalls = 1
    ∧ (Pull.getClaudeStatus ⟨false, "", false, "", false, "", "", "", true, "old", "r1", "", ""⟩
        [] 0 300
        ⟨.resp 401 "unauthorized" none,
         .resp 200 "" (some [("access_token", .str "new"), ("refresh_token", .str "r2")]),
         .resp 200 "" (some [])⟩).usageCalls = 2 := by
  exact ((claim_C5_theorem ⟨false, "", false, "", false, "", "", "", true, "old", "r1", "", ""⟩
      [] 0 300
      ⟨.resp 401 "unauthorized" none,
       .resp 200 "" (some [("access_token", .str "new"), ("refresh_token", .str "r2")]),
       .resp 200 "" (some [])⟩
      401 "unauthorized" "" none [] "new"
      ⟨false, "", false, "", false, "", "", "", true, "new", "r2", "", ""⟩).2.2
    rfl (by decide) rfl rfl (Or.inl rfl) (by decide)).1 (by decide)

theorem CacheWF_nil : CacheWF [] := fun k e h => by simp [cacheLookup] at h

theorem CacheWF_setCache (cache : Cache) (key : String) (data : ServiceStatus) (now : Int)
    (hwf : CacheWF cache) (hid : data.id = key) :
    CacheWF (setCache cache key data now) := by
  intro k e h
  by_cases hk : k = key
  · subst hk
    rw [cacheLookup_setCache_self] at h
    cases h
    exact hid
  · rw [cacheLookup_setCache_ne cache key k data now hk] at h
    exact hwf k e h

theorem getCached_id (cache : Cache) (key : String) (now ttl : Int) (s : ServiceStatus)
    (hwf : CacheWF cache) (hc : getCached cache key now ttl = some s) : s.id = key := by
  obtain ⟨e, helook, hedata, _⟩ := getCached_some cache key now ttl s hc
  rw [← hedata]
  exact hwf key e helook

theorem augment_id_wf (config : Configuration) (cache : Cache) (now ttl : Int)
    (w : FetchOutcome) (hwf : CacheWF cache) :
    (getAugmentStatus config cache now ttl w).record.id = "augment"
    ∧ CacheWF (getAugmentStatus config cache now ttl w).cache := by
  by_cases htok : config.augmentAccessToken = ""
  · exact ⟨by simp [getAugmentStatus, htok], by simpa [getAugmentStatus, htok] using hwf⟩
  · rcases hc : getCached cache "augment" now ttl with _ | s
    · cases w with
      | fail msg =>
        unfold getAugmentStatus
        rw [if_neg htok, hc]
        exact ⟨by trivial, hwf⟩
      | resp code body parsed =>
        unfold getAugmentStatus
        rw [if_neg htok, hc]
        by_cases hcode : code ≠ 200
        · simp only [if_pos hcode]
          exact ⟨by trivial, hwf⟩
        · simp only [if_neg hcode]
          rcases parsed with _ | raw
          · exact ⟨by trivial, hwf⟩
          · exact ⟨by trivial, CacheWF_setCache cache "augment" (augmentRecordOf raw now) now hwf rfl⟩
    · rw [augment_cached config cache now ttl w s htok hc]
      exact ⟨getCached_id cache "augment" now ttl s hwf hc, hwf⟩

theorem zai_id_wf (config : Configuration) (cache : Cache) (now ttl : Int)
    (wSub wQuota : FetchOutcome) (hwf : CacheWF cache) :
    (getZaiStatus config cache now ttl wSub wQuota).record.id = "zai"
    ∧ CacheWF (getZaiStatus config cache now ttl wSub wQuota).cache := by
  by_cases hkey : config.zaiApiKey = ""
  · exact ⟨by simp [getZaiStatus, hkey], by simpa [getZaiStatus, hkey] using hwf⟩
  · rcases hc : getCached cache "zai" now ttl with _ | s
    · unfold getZaiStatus
      rw [if_neg hkey, hc]
      exact ⟨rfl, CacheWF_setCache cache "zai" (zaiRecordOf wSub wQuota now) now hwf rfl⟩
    · unfold getZaiStatus
      rw [if_neg hkey, hc]
      exact ⟨getCached_id cache "zai" now ttl s hwf hc, hwf⟩

theorem openai_push_id_wf (config : Configuration) (cache : Cache) (now ttl : Int)
    (w : Push.OpenAIWorld) (hwf : CacheWF cache) :
    (Push.getOpenAIStatus config cache now ttl w).record.id = "openai"
    ∧ CacheWF (Push.getOpenAIStatus config cache now ttl w).cache := by
  by_cases hkey : config.openaiApiKey = ""
  · exact ⟨by simp [Push.getOpenAIStatus, hkey], by simpa [Push.getOpenAIStatus, hkey] using hwf⟩
  · rcases hc : getCached cache "openai" now ttl with _ | s
    · unfold Push.getOpenAIStatus
      rw [if_neg hkey, hc]
      rcases w with ⟨fetch, startDate⟩
      cases fetch with
      | fail msg => exact ⟨by trivial, hwf⟩
      | resp code body parsed =>
        by_cases hcode : code ≠ 200
        · simp only [if_pos hcode]
          rcases parsed with _ | raw
          · exact ⟨by trivial, hwf⟩
          · rcases hl : jLookup raw "error" with _ | v
            · simp only [hl]
              exact ⟨by trivial, hwf⟩
            · rcases v <;> simp only [hl] <;> exact ⟨by trivial, hwf⟩
        · simp only [if_neg hcode]
          rcases parsed with _ | raw
          · exact ⟨by trivial, hwf⟩
          · exact ⟨by trivial, CacheWF_setCache cache "openai" _ now hwf rfl⟩
    · unfold Push.getOpenAIStatus
      rw [if_neg hkey, hc]
      exact ⟨getCached_id cache "openai" now ttl s hwf hc, hwf⟩

theorem claude_push_id_wf (config : Configuration) (cache : Cache) (now ttl : Int)
    (hwf : CacheWF cache) :
    (Push.getClaudeStatus config cache now ttl).record.id = "claude"
    ∧ (Push.getClaudeStatus config cache now ttl).cache = cache := by
  by_cases hen : config.claudeEnabled = false
  · exact ⟨by simp [Push.getClaudeStatus, hen], by simp [Push.getClaudeStatus, hen]⟩
  · rcases hc : getCached cache "claude" now ttl with _ | s
    · unfold Push.getClaudeStatus
      rw [if_neg hen, hc]
      exact ⟨rfl, rfl⟩
    · unfold Push.getClaudeStatus
      rw [if_neg hen, hc]
      exact ⟨getCached_id cache "claude" now ttl s hwf hc, rfl⟩

theorem augmentStep_id_wf (config : Configuration) (cache : Cache) (now : Int)
    (w : FetchOutcome) (hwf : CacheWF cache) :
    (Push.augmentStep config cache now w).record.id = "augment"
    ∧ CacheWF (Push.augmentStep config cache now w).cache := by
  unfold Push.augmentStep
  by_cases hA : config.augmentEnabled
  · rw [if_pos hA]
    exact augment_id_wf config cache now Push.getCacheTTL w hwf
  · rw [if_neg hA]
    exact ⟨rfl, hwf⟩

theorem zaiStep_id_wf (config : Configuration) (cache : Cache) (now : Int)
    (wSub wQuota : FetchOutcome) (hwf : CacheWF cache) :
    (Push.zaiStep config cache now wSub wQuota).record.id = "zai"
    ∧ CacheWF (Push.zaiStep config cache now wSub wQuota).cache := by
  unfold Push.zaiStep
  by_cases hZ : config.zaiEnabled
  · rw [if_pos hZ]
    exact zai_id_wf config cache now Push.getCacheTTL wSub wQuota hwf
  · rw [if_neg hZ]
    exact ⟨rfl, hwf⟩

theorem openaiStep_id_wf (config : Configuration) (cache : Cache) (now : Int)
    (w : Push.OpenAIWorld) (hwf : CacheWF cache) :
    (Push.openaiStep config cache now w).record.id = "openai"
    ∧ CacheWF (Push.openaiStep config cache now w).cache := by
  unfold Push.openaiStep
  by_cases hO : config.openaiEnabled
  · rw [if_pos hO]
    exact openai_push_id_wf config cache now Push.getCacheTTL w hwf
  · rw [if_neg hO]
    exact ⟨rfl, hwf⟩

theorem claudeStep_id_wf (config : Configuration) (cache : Cache) (now : Int)
    (hwf : CacheWF cache) :
    (Push.claudeStep config cache now).record.id = "claude"
    ∧ CacheWF (Push.claudeStep config cache now).cache := by
  unfold Push.claudeStep
  by_cases hC : config.claudeEnabled
  · rw [if_pos hC]
    obtain ⟨hid, hcache⟩ := claude_push_id_wf config cache now Push.getCacheTTL hwf
    exact ⟨hid, by rw [hcache]; exact hwf⟩
  · rw [if_neg hC]
    exact ⟨rfl, hwf⟩

/-- C1, amended: for the webhook iteration's aggregator (part_001) the
claim holds — every aggregation over a well-formed cache returns exactly
four records, one per known provider, in the fixed order augment, zai,
openai, claude, with every disabled provider contributing the synthesized
disabled record with the hint message, regardless of fetch outcomes. The
aggregator of the early iteration (part_002 second file) instead emits
only enabled providers' records — and a single placeholder when all four
are disabled (see the counterexample). -/
theorem claim_C1_theorem (config : Configuration) (cache : Cache) (now : Int)
    (w : Push.Worlds) (hwf : CacheWF cache) :
    ((Push.handleGetStatus config cache now w).services.map (fun s => s.id)
      = ["augment", "zai", "openai", "claude"])
    ∧ (Push.handleGetStatus config cache now w).services.length = 4
    ∧ (config.augmentEnabled = false →
        (Push.handleGetStatus config cache now w).services[0]?
          = some (disabledRecord "augment" "Augment Code"))
    ∧ (config.zaiEnabled = false →
        (Push.handleGetStatus config cache now w).services[1]?
          = some (disabledRecord "zai" "Z.AI"))
    ∧ (config.openaiEnabled = false →
        (Push.handleGetStatus config cache now w).services[2]?
          = some (disabledRecord "openai" "OpenAI"))
    ∧ (config.claudeEnabled = false →
        (Push.handleGetStatus config cache now w).services[3]?
          = some (disabledRecord "claude" "Claude (Anthropic)")) := by
  obtain ⟨h1, hwf1⟩ := augmentStep_id_wf config cache now w.augment hwf
  obtain ⟨h2, hwf2⟩ := zaiStep_id_wf config _ now w.zaiSub w.zaiQuota hwf1
  obtain ⟨h3, hwf3⟩ := openaiStep_id_wf config _ now w.openai hwf2
  obtain ⟨h4, _⟩ := claudeStep_id_wf config _ now hwf3
  refine ⟨?_, ?_, ?_, ?_, ?_, ?_⟩
  · simp [Push.handleGetStatus, h1, h2, h3, h4]
  · simp [Push.handleGetStatus]
  · intro hA
    simp [Push.handleGetStatus, Push.augmentStep, hA]
  · intro hZ
    simp [Push.handleGetStatus, Push.zaiStep, hZ]
  · intro hO
    simp [Push.handleGetStatus, Push.openaiStep, hO]
  · intro hC
    simp [Push.handleGetStatus, Push.claudeStep, hC]

/-- Witness for the amended C1 theorem: a mixed configuration (augment
disabled, claude enabled) over the empty cache with failing worlds. -/
theorem claim_C1_witness :
    (Push.handleGetStatus ⟨false, "", true, "k", true, "k", "", "", true, "", "", "", ""⟩
      [] 0 ⟨.fail "down", .fail "down", .fail "down", ⟨.fail "down", "d"⟩⟩).services.map
        (fun s => s.id) = ["augment", "zai", "openai", "claude"] :=
  (claim_C1_theorem ⟨false, "", true, "k", true, "k", "", "", true, "", "", "", ""⟩
    [] 0 ⟨.fail "down", .fail "down", .fail "down", ⟨.fail "down", "d"⟩⟩ CacheWF_nil).1

/-- C1 counterexample: the aggregator of the early iteration (part_002
lines 337–367) with every provider disabled returns a single placeholder
record with id `none` — not four records in provider order. -/
theorem claim_C1_counterexample :
    (Stub.handleGetStatus ⟨false, "", false, "", false, "", "", "", false, "", "", "", ""⟩
      [] 0 ⟨.fail "", .fail "", .fail "", ⟨.fail "", ""⟩⟩).services.map (fun s => s.id)
      = ["none"]
    ∧ (Stub.handleGetStatus ⟨false, "", false, "", false, "", "", "", false, "", "", "", ""⟩
      [] 0 ⟨.fail "", .fail "", .fail "", ⟨.fail "", ""⟩⟩).services.length ≠ 4 := by
  exact ⟨rfl, by decide⟩

theorem zai_cached (config : Configuration) (cache : Cache) (now ttl : Int)
    (wSub wQuota : FetchOutcome) (s : ServiceStatus) (hkey : ¬config.zaiApiKey = "")
    (hhit : getCached cache "zai" now ttl = some s) :
    getZaiStatus config cache now ttl wSub wQuota = ⟨s, cache, 0⟩ := by
  unfold getZaiStatus
  rw [if_neg hkey, hhit]

theorem zai_miss (config : Configuration) (cache : Cache) (now ttl : Int)
    (wSub wQuota : FetchOutcome) (hkey : ¬config.zaiApiKey = "")
    (hmiss : getCached cache "zai" now ttl = none) :
    getZaiStatus config cache now ttl wSub wQuota
      = ⟨zaiRecordOf wSub wQuota now,
          setCache cache "zai" (zaiRecordOf wSub wQuota now) now, 2⟩ := by
  unfold getZaiStatus
  rw [if_neg hkey, hmiss]

theorem openai_pull_cached (config : Configuration) (cache : Cache) (now ttl : Int)
    (w : Pull.OpenAIWorld) (s : ServiceStatus) (hkey : ¬config.openaiApiKey = "")
    (hhit : getCached cache "openai" now ttl = some s) :
    Pull.getOpenAIStatus config cache now ttl w = ⟨s, cache, 0⟩ := by
  unfold Pull.getOpenAIStatus
  rw [if_neg hkey, hhit]

theorem openai_pull_miss_calls (config : Configuration) (cache : Cache) (now ttl : Int)
    (w : Pull.OpenAIWorld) (hkey : ¬config.openaiApiKey = "")
    (hmiss : getCached cache "openai" now ttl = none) :
    (Pull.getOpenAIStatus config cache now ttl w).calls = 1 := by
  unfold Pull.getOpenAIStatus
  rw [if_neg hkey, hmiss]
  rcases w with ⟨fetch, p, d⟩
  cases fetch with
  | fail msg => rfl
  | resp code body parsed =>
    by_cases hcode : code ≠ 200
    · simp only [if_pos hcode]
      rcases parsed with _ | raw
      · rfl
      · rcases hl : jLookup raw "error" with _ | v
        · simp only [hl]
        · rcases v <;> simp only [hl]
    · simp only [if_neg hcode]
      rcases parsed with _ | raw <;> rfl

theorem openai_pull_calls_le_one (config : Configuration) (cache : Cache) (now ttl : Int)
    (w : Pull.OpenAIWorld) :
    (Pull.getOpenAIStatus config cache now ttl w).calls ≤ 1 := by
  by_cases hkey : config.openaiApiKey = ""
  · simp [Pull.getOpenAIStatus, hkey]
  · rcases hc : getCached cache "openai" now ttl with _ | s
    · exact Nat.le_of_eq (openai_pull_miss_calls config cache now ttl w hkey hc)
    · rw [openai_pull_cached config cache now ttl w s hkey hc]
      simp

theorem openai_push_cached (config : Configuration) (cache : Cache) (now ttl : Int)
    (w : Push.OpenAIWorld) (s : ServiceStatus) (hkey : ¬config.openaiApiKey = "")
    (hhit : getCached cache "openai" now ttl = some s) :
    Push.getOpenAIStatus config cache now ttl w = ⟨s, cache, 0⟩ := by
  unfold Push.getOpenAIStatus
  rw [if_neg hkey, hhit]

theorem openai_push_success (config : Configuration) (cache : Cache) (now ttl : Int)
    (startDate body : String) (raw : JObj) (hkey : ¬config.openaiApiKey = "")
    (hmiss : getCached cache "openai" now ttl = none) :
    (Push.getOpenAIStatus config cache now ttl ⟨.resp 200 body (some raw), startDate⟩).calls = 1
    ∧ (Push.getOpenAIStatus config cache now ttl ⟨.resp 200 body (some raw), startDate⟩).cache
      = setCache cache "openai"
          (Push.getOpenAIStatus config cache now ttl
            ⟨.resp 200 body (some raw), startDate⟩).record now := by
  unfold Push.getOpenAIStatus
  rw [if_neg hkey, hmiss]
  exact ⟨rfl, rfl⟩

theorem openai_push_miss_calls (config : Configuration) (cache : Cache) (now ttl : Int)
    (w : Push.OpenAIWorld) (hkey : ¬config.openaiApiKey = "")
    (hmiss : getCached cache "openai" now ttl = none) :
    (Push.getOpenAIStatus config cache now ttl w).calls = 1 := by
  unfold Push.getOpenAIStatus
  rw [if_neg hkey, hmiss]
  rcases w with ⟨fetch, startDate⟩
  cases fetch with
  | fail msg => rfl
  | resp code body parsed =>
    by_cases hcode : code ≠ 200
    · simp only [if_pos hcode]
      rcases parsed with _ | raw
      · rfl
      · rcases hl : jLookup raw "error" with _ | v
        · simp only [hl]
        · rcases v <;> simp only [hl]
    · simp only [if_neg hcode]
      rcases parsed with _ | raw <;> rfl

theorem openai_stub_cached (config : Configuration) (cache : Cache) (now ttl : Int)
    (w : Stub.OpenAIWorld) (s : ServiceStatus) (hkey : ¬config.openaiApiKey = "")
    (hhit : getCached cache "openai" now ttl = some s) :
    Stub.getOpenAIStatus config cache now ttl w = ⟨s, cache, 0⟩ := by
  unfold Stub.getOpenAIStatus
  rw [if_neg hkey, hhit]

theorem openai_stub_success (config : Configuration) (cache : Cache) (now ttl : Int)
    (startDate body : String) (code : Nat) (raw : JObj) (hkey : ¬config.openaiApiKey = "")
    (hmiss : getCached cache "openai" now ttl = none)
    (herr : jLookup raw "error" = none) :
    (Stub.getOpenAIStatus config cache now ttl ⟨.resp code body (some raw), startDate⟩).calls = 1
    ∧ (Stub.getOpenAIStatus config cache now ttl ⟨.resp code body (some raw), startDate⟩).cache
      = setCache cache "openai"
          (Stub.getOpenAIStatus config cache now ttl
            ⟨.resp code body (some raw), startDate⟩).record now := by
  unfold Stub.getOpenAIStatus
  rw [if_neg hkey, hmiss]
  simp only [herr]
  exact ⟨by trivial, by trivial⟩

theorem openai_stub_miss_calls (config : Configuration) (cache : Cache) (now ttl : Int)
    (w : Stub.OpenAIWorld) (hkey : ¬config.openaiApiKey = "")
    (hmiss : getCached cache "openai" now ttl = none) :
    (Stub.getOpenAIStatus config cache now ttl w).calls = 1 := by
  unfold Stub.getOpenAIStatus
  rw [if_neg hkey, hmiss]
  rcases w with ⟨fetch, startDate⟩
  cases fetch with
  | fail msg => rfl
  | resp code body parsed =>
    rcases parsed with _ | raw
    · rfl
    · rcases hl : jLookup raw "error" with _ | v
      · simp only [hl]
      · simp only [hl]

theorem claude_pull_cached (config : Configuration) (cache : Cache) (now ttl : Int)
    (w : Pull.ClaudeWorld) (s : ServiceStatus) (hen : config.claudeEnabled = true)
    (htok : ¬config.claudeAccessToken = "")
    (hhit : getCached cache "claude" now ttl = some s) :
    Pull.getClaudeStatus config cache now ttl w = ⟨s, cache, 0, 0, []⟩ := by
  unfold Pull.getClaudeStatus
  rw [if_neg (by simp [hen]), if_neg htok, hhit]

theorem stub_claude_cached (config : Configuration) (cache : Cache) (now ttl : Int)
    (s : ServiceStatus) (hkey : ¬config.claudeAdminApiKey = "")
    (hhit : getCached cache "claude" now ttl = some s) :
    Stub.getClaudeStatus config cache now ttl = ⟨s, cache, 0⟩ := by
  unfold Stub.getClaudeStatus
  rw [if_neg hkey, hhit]

theorem finishClaude_200_caches (cache : Cache) (now : Int) (body : String) (raw : JObj) :
    (Pull.finishClaude cache now 200 body (some raw)).2
      = setCache cache "claude" (Pull.finishClaude cache now 200 body (some raw)).1 now := by
  unfold Pull.finishClaude
  simp

theorem claude_pull_success (config : Configuration) (cache : Cache) (now ttl : Int)
    (w : Pull.ClaudeWorld) (body : String) (raw : JObj)
    (hen : config.claudeEnabled = true) (htok : config.claudeAccessToken ≠ "")
    (hmiss : getCached cache "claude" now ttl = none)
    (hfirst : w.first = .resp 200 body (some raw)) :
    Pull.getClaudeStatus config cache now ttl w
      = ⟨(Pull.finishClaude cache now 200 body (some raw)).1,
          (Pull.finishClaude cache now 200 body (some raw)).2, 1, 0, []⟩ := by
  rcases w with ⟨first, refresh, retry⟩
  simp only at hfirst
  subst hfirst
  simp [Pull.getClaudeStatus, hen, htok, hmiss]

theorem claude_pull_miss_usage (config : Configuration) (cache : Cache) (now ttl : Int)
    (w : Pull.ClaudeWorld) (hen : config.claudeEnabled = true)
    (htok : config.claudeAccessToken ≠ "")
    (hmiss : getCached cache "claude" now ttl = none) :
    1 ≤ (Pull.getClaudeStatus config cache now ttl w).usageCalls := by
  unfold Pull.getClaudeStatus
  rw [if_neg (by simp [hen]), if_neg htok, hmiss]
  rcases w with ⟨first, refresh, retry⟩
  cases first with
  | fail msg => simp
  | resp code0 body0 parsed0 =>
    by_cases h3 : (code0 = 401 ∨ code0 = 403) ∧ config.claudeRefreshToken ≠ ""
    · rcases hr : Pull.refreshClaudeToken config refresh with _ | ⟨tok, cfg2⟩
      · simp [h3, hr]
      · cases retry <;> simp [h3, hr]
    · simp [h3]

theorem openai_push_calls_le_one (config : Configuration) (cache : Cache) (now ttl : Int)
    (w : Push.OpenAIWorld) :
    (Push.getOpenAIStatus config cache now ttl w).calls ≤ 1 := by
  by_cases hkey : config.openaiApiKey = ""
  · simp [Push.getOpenAIStatus, hkey]
  · rcases hc : getCached cache "openai" now ttl with _ | s
    · exact Nat.le_of_eq (openai_push_miss_calls config cache now ttl w hkey hc)
    · rw [openai_push_cached config cache now ttl w s hkey hc]
      simp

theorem openai_stub_calls_le_one (config : Configuration) (cache : Cache) (now ttl : Int)
    (w : Stub.OpenAIWorld) :
    (Stub.getOpenAIStatus config cache now ttl w).calls ≤ 1 := by
  by_cases hkey : config.openaiApiKey = ""
  · simp [Stub.getOpenAIStatus, hkey]
  · rcases hc : getCached cache "openai" now ttl with _ | s
    · exact Nat.le_of_eq (openai_stub_miss_calls config cache now ttl w hkey hc)
    · rw [openai_stub_cached config cache now ttl w s hkey hc]
      simp

/-- C2, amended: for every resolver of every iteration, an enabled
provider with credentials whose cache entry is unexpired is answered with
the cached record verbatim — same status, data, error and cachedAt — with
no outbound HTTP call and no cache change. Two resolutions within one TTL
window perform at most one fetch pass between them, but a pass is not one
call for every provider: it is one call for the augment and OpenAI
resolvers, always two calls for the Z.AI resolver (see the
counterexample), and up to two usage calls plus a refresh POST for the
OAuth Claude resolver — so for Z.AI and Claude the bound is "at most one
of the two resolutions reaches upstream", not "at most one call". Beyond
the TTL window each fetching resolver performs at least one further call
(the webhook and stub Claude resolvers never call upstream at all). -/
theorem claim_C2_theorem (config : Configuration) (cache : Cache) (now1 now2 ttl : Int)
    (entry : CacheEntry) (wA1 wA2 wzs1 wzq1 wzs2 wzq2 : FetchOutcome)
    (oP1 oP2 : Pull.OpenAIWorld) (oU1 oU2 : Push.OpenAIWorld) (oS1 oS2 : Stub.OpenAIWorld)
    (wc1 wc2 : Pull.ClaudeWorld) (c : Nat) (body : String) (raw : JObj) :
    (config.augmentAccessToken ≠ "" → cacheLookup cache "augment" = some entry →
      now1 - entry.fetchedAt ≤ ttl →
      getAugmentStatus config cache now1 ttl wA1 = ⟨entry.data, cache, 0⟩)
    ∧ (config.zaiApiKey ≠ "" → cacheLookup cache "zai" = some entry →
      now1 - entry.fetchedAt ≤ ttl →
      getZaiStatus config cache now1 ttl wzs1 wzq1 = ⟨entry.data, cache, 0⟩)
    ∧ (config.openaiApiKey ≠ "" → cacheLookup cache "openai" = some entry →
      now1 - entry.fetchedAt ≤ ttl →
      Pull.getOpenAIStatus config cache now1 ttl oP1 = ⟨entry.data, cache, 0⟩
      ∧ Push.getOpenAIStatus config cache now1 ttl oU1 = ⟨entry.data, cache, 0⟩
      ∧ Stub.getOpenAIStatus config cache now1 ttl oS1 = ⟨entry.data, cache, 0⟩)
    ∧ (cacheLookup cache "claude" = some entry → now1 - entry.fetchedAt ≤ ttl →
      (config.claudeEnabled = true → config.claudeAccessToken ≠ "" →
        Pull.getClaudeStatus config cache now1 ttl wc1 = ⟨entry.data, cache, 0, 0, []⟩)
      ∧ (config.claudeEnabled = true →
        Push.getClaudeStatus config cache now1 ttl = ⟨entry.data, cache, 0⟩)
      ∧ (config.claudeAdminApiKey ≠ "" →
        Stub.getClaudeStatus config cache now1 ttl = ⟨entry.data, cache, 0⟩))
    ∧ (FetchSuccess wA1 → now2 - now1 ≤ ttl →
      (getAugmentStatus config cache now1 ttl wA1).calls
        + (getAugmentStatus config (getAugmentStatus config cache now1 ttl wA1).cache
            now2 ttl wA2).calls ≤ 1)
    ∧ (now2 - now1 ≤ ttl →
      (getZaiStatus config cache now1 ttl wzs1 wzq1).calls = 0
      ∨ (getZaiStatus config (getZaiStatus config cache now1 ttl wzs1 wzq1).cache
          now2 ttl wzs2 wzq2).calls = 0)
    ∧ (FetchSuccess oP1.fetch → now2 - now1 ≤ ttl →
      (Pull.getOpenAIStatus config cache now1 ttl oP1).calls
        + (Pull.getOpenAIStatus config (Pull.getOpenAIStatus config cache now1 ttl oP1).cache
            now2 ttl oP2).calls ≤ 1)
    ∧ (FetchSuccess oU1.fetch → now2 - now1 ≤ ttl →
      (Push.getOpenAIStatus config cache now1 ttl oU1).calls
        + (Push.getOpenAIStatus config (Push.getOpenAIStatus config cache now1 ttl oU1).cache
            now2 ttl oU2).calls ≤ 1)
    ∧ (oS1.fetch = .resp c body (some raw) → jLookup raw "error" = none →
      now2 - now1 ≤ ttl →
      (Stub.getOpenAIStatus config cache now1 ttl oS1).calls
        + (Stub.getOpenAIStatus config (Stub.getOpenAIStatus config cache now1 ttl oS1).cache
            now2 ttl oS2).calls ≤ 1)
    ∧ (wc1.first = .resp 200 body (some raw) → now2 - now1 ≤ ttl →
      ((Pull.getClaudeStatus config cache now1 ttl wc1).usageCalls
        + (Pull.getClaudeStatus config cache now1 ttl wc1).refreshCalls = 0)
      ∨ ((Pull.getClaudeStatus config (Pull.getClaudeStatus config cache now1 ttl wc1).cache
            now2 ttl wc2).usageCalls
        + (Pull.getClaudeStatus config (Pull.getClaudeStatus config cache now1 ttl wc1).cache
            now2 ttl wc2).refreshCalls = 0))
    ∧ (config.augmentAccessToken ≠ "" → FetchSuccess wA1 →
      getCached cache "augment" now1 ttl = none → now2 - now1 > ttl →
      (getAugmentStatus config (getAugmentStatus config cache now1 ttl wA1).cache
        now2 ttl wA2).calls = 1)
    ∧ (config.zaiApiKey ≠ "" → getCached cache "zai" now1 ttl = none → now2 - now1 > ttl →
      (getZaiStatus config (getZaiStatus config cache now1 ttl wzs1 wzq1).cache
        now2 ttl wzs2 wzq2).calls = 2)
    ∧ (config.openaiApiKey ≠ "" → FetchSuccess oP1.fetch →
      getCached cache "openai" now1 ttl = none → now2 - now1 > ttl →
      (Pull.getOpenAIStatus config (Pull.getOpenAIStatus config cache now1 ttl oP1).cache
        now2 ttl oP2).calls = 1)
    ∧ (config.openaiApiKey ≠ "" → FetchSuccess oU1.fetch →
      getCached cache "openai" now1 ttl = none → now2 - now1 > ttl →
      (Push.getOpenAIStatus config (Push.getOpenAIStatus config cache now1 ttl oU1).cache
        now2 ttl oU2).calls = 1)
    ∧ (config.openaiApiKey ≠ "" → oS1.fetch = .resp c body (some raw) →
      jLookup raw "error" = none → getCached cache "openai" now1 ttl = none →
      now2 - now1 > ttl →
      (Stub.getOpenAIStatus config (Stub.getOpenAIStatus config cache now1 ttl oS1).cache
        now2 ttl oS2).calls = 1)
    ∧ (config.claudeEnabled = true → config.claudeAccessToken ≠ "" →
      wc1.first = .resp 200 body (some raw) →
      getCached cache "claude" now1 ttl = none → now2 - now1 > ttl →
      1 ≤ (Pull.getClaudeStatus config (Pull.getClaudeStatus config cache now1 ttl wc1).cache
        now2 ttl wc2).usageCalls) := by
  have hhit : ∀ key, cacheLookup cache key = some entry → now1 - entry.fetchedAt ≤ ttl →
      getCached cache key now1 ttl = some entry.data := by
    intro key hlook hage
    simp [getCached, hlook, not_lt.mpr hage]
  refine ⟨?_, ?_, ?_, ?_, ?_, ?_, ?_, ?_, ?_, ?_, ?_, ?_, ?_, ?_, ?_, ?_⟩
  · intro htok hlook hage
    exact augment_cached config cache now1 ttl wA1 entry.data htok (hhit _ hlook hage)
  · intro hkey hlook hage
    exact zai_cached config cache now1 ttl wzs1 wzq1 entry.data hkey (hhit _ hlook hage)
  · intro hkey hlook hage
    exact ⟨openai_pull_cached config cache now1 ttl oP1 entry.data hkey (hhit _ hlook hage),
      openai_push_cached config cache now1 ttl oU1 entry.data hkey (hhit _ hlook hage),
      openai_stub_cached config cache now1 ttl oS1 entry.data hkey (hhit _ hlook hage)⟩
  · intro hlook hage
    exact ⟨fun hen htok =>
        claude_pull_cached config cache now1 ttl wc1 entry.data hen htok (hhit _ hlook hage),
      fun hen => push_claude_cached config cache now1 ttl entry.data hen (hhit _ hlook hage),
      fun hkey => stub_claude_cached config cache now1 ttl entry.data hkey (hhit _ hlook hage)⟩
  · intro hsucc hwin
    by_cases htok : config.augmentAccessToken = ""
    · simp [getAugmentStatus, htok]
    · rcases hc : getCached cache "augment" now1 ttl with _ | s
      · cases wA1 with
        | fail msg => exact absurd hsucc (by simp [FetchSuccess])
        | resp code bd parsed =>
          obtain ⟨hcode, hsome⟩ := hsucc
          subst hcode
          rcases parsed with _ | rw1
          · simp at hsome
          · rw [augment_miss_success config cache now1 ttl bd rw1 htok hc]
            rw [augment_cached config _ now2 ttl wA2 _ htok
              (getCached_setCache_within cache "augment" (augmentRecordOf rw1 now1)
                now1 now2 ttl hwin)]
            simp
      · rw [augment_cached config cache now1 ttl wA1 s htok hc]
        simpa using augment_calls_le_one config cache now2 ttl wA2
  · intro hwin
    by_cases hkey : config.zaiApiKey = ""
    · left
      simp [getZaiStatus, hkey]
    · rcases hc : getCached cache "zai" now1 ttl with _ | s
      · right
        rw [zai_miss config cache now1 ttl wzs1 wzq1 hkey hc]
        rw [zai_cached config _ now2 ttl wzs2 wzq2 _ hkey
          (getCached_setCache_within cache "zai" (zaiRecordOf wzs1 wzq1 now1) now1 now2 ttl hwin)]
      · left
        rw [zai_cached config cache now1 ttl wzs1 wzq1 s hkey hc]
  · intro hsucc hwin
    by_cases hkey : config.openaiApiKey = ""
    · simp [Pull.getOpenAIStatus, hkey]
    · rcases hc : getCached cache "openai" now1 ttl with _ | s
      · rcases oP1 with ⟨fetch, p, d⟩
        cases fetch with
        | fail msg => exact absurd hsucc (by simp [FetchSuccess])
        | resp code bd parsed =>
          obtain ⟨hcode, hsome⟩ := hsucc
          subst hcode
          rcases parsed with _ | rw1
          · simp at hsome
          · rw [openai_success config cache now1 ttl d p bd rw1 hkey hc]
            rw [openai_pull_cached config _ now2 ttl oP2 _ hkey
              (getCached_setCache_within cache "openai" _ now1 now2 ttl hwin)]
            simp
      · rw [openai_pull_cached config cache now1 ttl oP1 s hkey hc]
        simpa using openai_pull_calls_le_one config cache now2 ttl oP2
  · intro hsucc hwin
    by_cases hkey : config.openaiApiKey = ""
    · simp [Push.getOpenAIStatus, hkey]
    · rcases hc : getCached cache "openai" now1 ttl with _ | s
      · rcases oU1 with ⟨fetch, sd⟩
        cases fetch with
        | fail msg => exact absurd hsucc (by simp [FetchSuccess])
        | resp code bd parsed =>
          obtain ⟨hcode, hsome⟩ := hsucc
          subst hcode
          rcases parsed with _ | rw1
          · simp at hsome
          · obtain ⟨hcalls, hcache⟩ := openai_push_success config cache now1 ttl sd bd rw1 hkey hc
            rw [hcalls, hcache]
            rw [openai_push_cached config _ now2 ttl oU2 _ hkey
              (getCached_setCache_within cache "openai" _ now1 now2 ttl hwin)]
            simp
      · rw [openai_push_cached config cache now1 ttl oU1 s hkey hc]
        simpa using openai_push_calls_le_one config cache now2 ttl oU2
  · intro hfetch herr hwin
    by_cases hkey : config.openaiApiKey = ""
    · simp [Stub.getOpenAIStatus, hkey]
    · rcases hc : getCached cache "openai" now1 ttl with _ | s
      · rcases oS1 with ⟨fetch, sd⟩
        simp only at hfetch
        subst hfetch
        obtain ⟨hcalls, hcache⟩ := openai_stub_success config cache now1 ttl sd body c raw hkey hc herr
        rw [hcalls, hcache]
        rw [openai_stub_cached config _ now2 ttl oS2 _ hkey
          (getCached_setCache_within cache "openai" _ now1 now2 ttl hwin)]
        simp
      · rw [openai_stub_cached config cache now1 ttl oS1 s hkey hc]
        simpa using openai_stub_calls_le_one config cache now2 ttl oS2
  · intro hfirst hwin
    by_cases hen : config.claudeEnabled = true
    · by_cases htok : config.claudeAccessToken = ""
      · left
        simp [Pull.getClaudeStatus, hen, htok]
      · rcases hc : getCached cache "claude" now1 ttl with _ | s
        · right
          rw [claude_pull_success config cache now1 ttl wc1 body raw hen htok hc hfirst]
          rw [show (⟨(Pull.finishClaude cache now1 200 body (some raw)).1,
              (Pull.finishClaude cache now1 200 body (some raw)).2, 1, 0, []⟩
              : Pull.ClaudeResolveResult).cache
            = (Pull.finishClaude cache now1 200 body (some raw)).2 from rfl]
          rw [finishClaude_200_caches cache now1 body raw]
          rw [claude_pull_cached config _ now2 ttl wc2 _ hen htok
            (getCached_setCache_within cache "claude" _ now1 now2 ttl hwin)]
          rfl
        · left
          rw [claude_pull_cached config cache now1 ttl wc1 s hen htok hc]
          rfl
    · left
      have hen2 : config.claudeEnabled = false := by
        cases h : config.claudeEnabled
        · rfl
        · exact absurd h hen
      simp [Pull.getClaudeStatus, hen2]
  · intro htok hsucc hmiss hbey
    cases wA1 with
    | fail msg => exact absurd hsucc (by simp [FetchSuccess])
    | resp code bd parsed =>
      obtain ⟨hcode, hsome⟩ := hsucc
      subst hcode
      rcases parsed with _ | rw1
      · simp at hsome
      · rw [augment_miss_success config cache now1 ttl bd rw1 htok hmiss]
        exact augment_miss_calls config _ now2 ttl wA2 htok
          (getCached_setCache_beyond cache "augment" (augmentRecordOf rw1 now1) now1 now2 ttl hbey)
  · intro hkey hmiss hbey
    rw [zai_miss config cache now1 ttl wzs1 wzq1 hkey hmiss]
    rw [zai_miss config _ now2 ttl wzs2 wzq2 hkey
      (getCached_setCache_beyond cache "zai" (zaiRecordOf wzs1 wzq1 now1) now1 now2 ttl hbey)]
  · intro hkey hsucc hmiss hbey
    rcases oP1 with ⟨fetch, p, d⟩
    cases fetch with
    | fail msg => exact absurd hsucc (by simp [FetchSuccess])
    | resp code bd parsed =>
      obtain ⟨hcode, hsome⟩ := hsucc
      subst hcode
      rcases parsed with _ | rw1
      · simp at hsome
      · rw [openai_success config cache now1 ttl d p bd rw1 hkey hmiss]
        exact openai_pull_miss_calls config _ now2 ttl oP2 hkey
          (getCached_setCache_beyond cache "openai" _ now1 now2 ttl hbey)
  · intro hkey hsucc hmiss hbey
    rcases oU1 with ⟨fetch, sd⟩
    cases fetch with
    | fail msg => exact absurd hsucc (by simp [FetchSuccess])
    | resp code bd parsed =>
      obtain ⟨hcode, hsome⟩ := hsucc
      subst hcode
      rcases parsed with _ | rw1
      · simp at hsome
      · obtain ⟨hcalls, hcache⟩ := openai_push_success config cache now1 ttl sd bd rw1 hkey hmiss
        rw [hcache]
        exact openai_push_miss_calls config _ now2 ttl oU2 hkey
          (getCached_setCache_beyond cache "openai" _ now1 now2 ttl hbey)
  · intro hkey hfetch herr hmiss hbey
    rcases oS1 with ⟨fetch, sd⟩
    simp only at hfetch
    subst hfetch
    obtain ⟨hcalls, hcache⟩ := openai_stub_success config cache now1 ttl sd body c raw hkey hmiss herr
    rw [hcache]
    exact openai_stub_miss_calls config _ now2 ttl oS2 hkey
      (getCached_setCache_beyond cache "openai" _ now1 now2 ttl hbey)
  · intro hen htok hfirst hmiss hbey
    rw [claude_pull_success config cache now1 ttl wc1 body raw hen htok hmiss hfirst]
    rw [show (⟨(Pull.finishClaude cache now1 200 body (some raw)).1,
        (Pull.finishClaude cache now1 200 body (some raw)).2, 1, 0, []⟩
        : Pull.ClaudeResolveResult).cache
      = (Pull.finishClaude cache now1 200 body (some raw)).2 from rfl]
    rw [finishClaude_200_caches cache now1 body raw]
    exact claude_pull_miss_usage config _ now2 ttl wc2 hen htok
      (getCached_setCache_beyond cache "claude" _ now1 now2 ttl hbey)

/-- Witness for the amended C2 theorem: a fresh Z.AI cache entry is
returned verbatim with no outbound call. -/
theorem claim_C2_witness :
    getZaiStatus ⟨false, "", true, "key", false, "", "", "", false, "", "", "", ""⟩
      [("zai", ⟨disabledRecord "zai" "Z.AI", 0⟩)] 100 300 (.fail "down") (.fail "down")
      = ⟨disabledRecord "zai" "Z.AI", [("zai", ⟨disabledRecord "zai" "Z.AI", 0⟩)], 0⟩ := by
  exact (claim_C2_theorem ⟨false, "", true, "key", false, "", "", "", false, "", "", "", ""⟩
    [("zai", ⟨disabledRecord "zai" "Z.AI", 0⟩)] 100 200 300 ⟨disabledRecord "zai" "Z.AI", 0⟩
    (.fail "down") (.fail "down") (.fail "down") (.fail "down") (.fail "down") (.fail "down")
    ⟨.fail "down", "", 0⟩ ⟨.fail "down", "", 0⟩ ⟨.fail "down", ""⟩ ⟨.fail "down", ""⟩
    ⟨.fail "down", ""⟩ ⟨.fail "down", ""⟩ ⟨.fail "down", .fail "down", .fail "down"⟩
    ⟨.fail "down", .fail "down", .fail "down"⟩ 0 "" []).2.1
    (by decide) rfl (by decide)

/-- C2 counterexample: the claim's "two resolutions of the same enabled,
reachable provider within one TTL window issue at most one upstream call"
fails for the Z.AI resolver, whose single fetch pass performs two
`client.Do` calls: with credentials, an empty cache, and a second
resolution 100 seconds later (within the 300-second TTL), the pair issues
exactly two upstream calls. -/
theorem claim_C2_counterexample :
    (getZaiStatus ⟨false, "", true, "key", false, "", "", "", false, "", "", "", ""⟩
        [] 0 300 (.fail "refused") (.fail "refused")).calls
      + (getZaiStatus ⟨false, "", true, "key", false, "", "", "", false, "", "", "", ""⟩
          (getZaiStatus ⟨false, "", true, "key", false, "", "", "", false, "", "", "", ""⟩
            [] 0 300 (.fail "refused") (.fail "refused")).cache
          100 300 (.fail "refused") (.fail "refused")).calls = 2
    ∧ ¬((getZaiStatus ⟨false, "", true, "key", false, "", "", "", false, "", "", "", ""⟩
        [] 0 300 (.fail "refused") (.fail "refused")).calls
      + (getZaiStatus ⟨false, "", true, "key", false, "", "", "", false, "", "", "", ""⟩
          (getZaiStatus ⟨false, "", true, "key", false, "", "", "", false, "", "", "", ""⟩
            [] 0 300 (.fail "refused") (.fail "refused")).cache
          100 300 (.fail "refused") (.fail "refused")).calls ≤ 1) := by
  exact ⟨by decide, by decide⟩

/-- C3, amended: for the Augment, OpenAI (OAuth iteration) and Claude
(OAuth iteration) resolvers, a cache-missing transport failure or
non-2xx response yields a status-error record whose error field carries
the failure detail — the transport message, the provider's error-envelope
message when one parses, or the HTTP code with the raw body truncated to
its first 200 bytes — and is never converted into ok, with one sanctioned
exception: a Claude 401/403 whose token refresh and retried call both
succeed resolves to the retry's outcome (for the Claude resolver the
error guarantee therefore covers every non-2xx final response: no refresh
attempted, refresh failed, retry transport-failed, or retry non-2xx).
The Z.AI resolver is the outlier (see the counterexample): it skips
per-call failures silently and reports ok with zeroed data. -/
theorem claim_C3_theorem (config : Configuration) (cache : Cache) (now ttl : Int)
    (msg body p : String) (d : Int) (code : Nat) (parsed : Option JObj)
    (w : Pull.ClaudeWorld) :
    (config.augmentAccessToken ≠ "" → getCached cache "augment" now ttl = none →
      (getAugmentStatus config cache now ttl (.fail msg)).record.status = "error"
      ∧ (getAugmentStatus config cache now ttl (.fail msg)).record.error = "API error: " ++ msg)
    ∧ (config.augmentAccessToken ≠ "" → getCached cache "augment" now ttl = none → code ≠ 200 →
      (getAugmentStatus config cache now ttl (.resp code body parsed)).record.status = "error"
      ∧ (getAugmentStatus config cache now ttl (.resp code body parsed)).record.error
          = "HTTP " ++ toString code ++ ": " ++ truncBody body
      ∧ (truncBody body).length ≤ 200)
    ∧ (config.openaiApiKey ≠ "" → getCached cache "openai" now ttl = none →
      (Pull.getOpenAIStatus config cache now ttl ⟨.fail msg, p, d⟩).record.status = "error"
      ∧ (Pull.getOpenAIStatus config cache now ttl ⟨.fail msg, p, d⟩).record.error
          = "API error: " ++ msg)
    ∧ (config.openaiApiKey ≠ "" → getCached cache "openai" now ttl = none → code ≠ 200 →
      (Pull.getOpenAIStatus config cache now ttl
        ⟨.resp code body parsed, p, d⟩).record.status = "error"
      ∧ ((∃ raw2 errObj, parsed = some raw2 ∧ jLookup raw2 "error" = some (.obj errObj)
            ∧ (Pull.getOpenAIStatus config cache now ttl
                ⟨.resp code body parsed, p, d⟩).record.error = getString errObj "message")
         ∨ (Pull.getOpenAIStatus config cache now ttl
              ⟨.resp code body parsed, p, d⟩).record.error
            = "HTTP " ++ toString code ++ ": " ++ truncBody body)
      ∧ (truncBody body).length ≤ 200)
    ∧ (config.claudeEnabled = true → config.claudeAccessToken ≠ "" →
      getCached cache "claude" now ttl = none → w.first = .fail msg →
      (Pull.getClaudeStatus config cache now ttl w).record.status = "error"
      ∧ (Pull.getClaudeStatus config cache now ttl w).record.error = "API error: " ++ msg)
    ∧ (config.claudeEnabled = true → config.claudeAccessToken ≠ "" →
      getCached cache "claude" now ttl = none → w.first = .resp code body parsed →
      code ≠ 200 → ¬((code = 401 ∨ code = 403) ∧ config.claudeRefreshToken ≠ "") →
      (Pull.getClaudeStatus config cache now ttl w).record.status = "error"
      ∧ (Pull.getClaudeStatus config cache now ttl w).record.error
          = "HTTP " ++ toString code ++ ": " ++ truncBody body)
    ∧ (config.claudeEnabled = true → config.claudeAccessToken ≠ "" →
      getCached cache "claude" now ttl = none → w.first = .resp code body parsed →
      (code = 401 ∨ code = 403) → config.claudeRefreshToken ≠ "" →
      (∀ emsg, Pull.refreshClaudeToken config w.refresh = .err emsg →
        (Pull.getClaudeStatus config cache now ttl w).record.status = "error"
        ∧ (Pull.getClaudeStatus config cache now ttl w).record.error
            = "HTTP " ++ toString code ++ ": " ++ truncBody body)
      ∧ (∀ tok cfg2, Pull.refreshClaudeToken config w.refresh = .ok tok cfg2 →
        (∀ rmsg, w.retry = .fail rmsg →
          (Pull.getClaudeStatus config cache now ttl w).record.status = "error"
          ∧ (Pull.getClaudeStatus config cache now ttl w).record.error
              = "HTTP " ++ toString code ++ ": " ++ truncBody body)
        ∧ (∀ code2 body2 parsed2, w.retry = .resp code2 body2 parsed2 → code2 ≠ 200 →
          (Pull.getClaudeStatus config cache now ttl w).record.status = "error"
          ∧ (Pull.getClaudeStatus config cache now ttl w).record.error
              = "HTTP " ++ toString code2 ++ ": " ++ truncBody body2))) := by
  refine ⟨?_, ?_, ?_, ?_, ?_, ?_, ?_⟩
  · intro htok hmiss
    unfold getAugmentStatus
    rw [if_neg htok, hmiss]
    exact ⟨rfl, rfl⟩
  · intro htok hmiss hcode
    unfold getAugmentStatus
    rw [if_neg htok, hmiss]
    simp only [if_pos hcode]
    exact ⟨by trivial, by trivial, truncBody_length_le body⟩
  · intro hkey hmiss
    unfold Pull.getOpenAIStatus
    rw [if_neg hkey, hmiss]
    exact ⟨rfl, rfl⟩
  · intro hkey hmiss hcode
    unfold Pull.getOpenAIStatus
    rw [if_neg hkey, hmiss]
    simp only [if_pos hcode]
    rcases parsed with _ | raw2
    · exact ⟨by trivial, Or.inr (by trivial), truncBody_length_le body⟩
    · rcases hl : jLookup raw2 "error" with _ | v
      · simp only [hl]
        exact ⟨by trivial, Or.inr (by trivial), truncBody_length_le body⟩
      · cases v with
        | obj errObj =>
          simp only [hl]
          exact ⟨by trivial, Or.inl ⟨raw2, errObj, rfl, hl, by trivial⟩,
            truncBody_length_le body⟩
        | null =>
          simp only [hl]
          exact ⟨by trivial, Or.inr (by trivial), truncBody_length_le body⟩
        | bool b =>
          simp only [hl]
          exact ⟨by trivial, Or.inr (by trivial), truncBody_length_le body⟩
        | num q =>
          simp only [hl]
          exact ⟨by trivial, Or.inr (by trivial), truncBody_length_le body⟩
        | str s2 =>
          simp only [hl]
          exact ⟨by trivial, Or.inr (by trivial), truncBody_length_le body⟩
        | arr xs =>
          simp only [hl]
          exact ⟨by trivial, Or.inr (by trivial), truncBody_length_le body⟩
  · intro hen htok hmiss hfail
    unfold Pull.getClaudeStatus
    rw [if_neg (by simp [hen]), if_neg htok, hmiss, hfail]
    exact ⟨rfl, rfl⟩
  · intro hen htok hmiss hfirst hcode hnr
    have hfin := finishClaude_non200 cache now code body parsed hcode
    rcases w with ⟨first, refresh, retry⟩
    simp only at hfirst
    subst hfirst
    constructor <;> simp [Pull.getClaudeStatus, hen, htok, hmiss, hnr, hfin]
  · intro hen htok hmiss hfirst hcode hrt
    have hcond : (code = 401 ∨ code = 403) ∧ config.claudeRefreshToken ≠ "" := ⟨hcode, hrt⟩
    have hc200 : code ≠ 200 := by rcases hcode with h | h <;> omega
    have hfin := finishClaude_non200 cache now code body parsed hc200
    rcases w with ⟨first, refresh, retry⟩
    simp only at hfirst
    subst hfirst
    constructor
    · intro emsg herr
      simp only at herr
      constructor <;> simp [Pull.getClaudeStatus, hen, htok, hmiss, hcond, herr, hfin]
    · intro tok cfg2 hok
      simp only at hok
      constructor
      · intro rmsg hretry
        simp only at hretry
        subst hretry
        constructor <;> simp [Pull.getClaudeStatus, hen, htok, hmiss, hcond, hok, hfin]
      · intro code2 body2 parsed2 hretry hcode2
        simp only at hretry
        subst hretry
        have hfin2 := finishClaude_non200 cache now code2 body2 parsed2 hcode2
        constructor <;> simp [Pull.getClaudeStatus, hen, htok, hmiss, hcond, hok, hfin2]

/-- Witness for the amended C3 theorem: a Claude 401 whose refresh call
itself fails is reported as an error record carrying the original 401 and
the truncated body. -/
theorem claim_C3_witness :
    (Pull.getClaudeStatus ⟨false, "", false, "", false, "", "", "", true, "tok", "r1", "", ""⟩
      [] 0 300 ⟨.resp 401 "unauthorized" none, .fail "refresh down", .fail ""⟩).record.status
      = "error"
    ∧ (Pull.getClaudeStatus ⟨false, "", false, "", false, "", "", "", true, "tok", "r1", "", ""⟩
      [] 0 300 ⟨.resp 401 "unauthorized" none, .fail "refresh down", .fail ""⟩).record.error
      = "HTTP " ++ toString 401 ++ ": " ++ truncBody "unauthorized" := by
  exact ((claim_C3_theorem ⟨false, "", false, "", false, "", "", "", true, "tok", "r1", "", ""⟩
    [] 0 300 "" "unauthorized" "" 0 401 none
    ⟨.resp 401 "unauthorized" none, .fail "refresh down", .fail ""⟩).2.2.2.2.2.2
    rfl (by decide) rfl rfl (Or.inl rfl) (by decide)).1 "refresh down" rfl
